import Mathlib

/-!
# Shallow embedding of the `love-letter` game engine

This file embeds the Rust sources of the `love-letter` repository
(`src/card.rs`, `src/deck.rs`, `src/player.rs`, `src/action.rs`,
`src/event.rs`, `src/game.rs`) as executable Lean definitions and proves
properties of that embedding.

Conventions used throughout:

* `usize` indices become `Nat`; card values (`u32`) become `Nat`.
* Rust functions taking `&mut self` become state-passing functions that
  return the updated value alongside their result.
* A Rust panic (`unwrap` on `None`, out-of-bounds `Vec` indexing, or a
  non-terminating loop) is modelled by an `Option` result of `none`; a
  returned `Result::Err(e)` is modelled by `Except.error e` *inside*
  `some`, so that panics and game errors stay distinct outcomes.
* `Deck::shuffle` calls `rand::thread_rng()`; the randomness it consumes
  is modelled by passing the post-shuffle order of the cards explicitly
  (theorems that need it hypothesise that this order is a permutation of
  the fresh deck, which is what a shuffle of a freshly reset deck yields).
-/

namespace LoveLetter

instance {ε α : Type} [DecidableEq ε] [DecidableEq α] : DecidableEq (Except ε α) :=
  fun a b =>
    match a, b with
    | .ok x, .ok y =>
      if h : x = y then isTrue (by rw [h]) else isFalse (fun hc => h (Except.ok.inj hc))
    | .error x, .error y =>
      if h : x = y then isTrue (by rw [h]) else isFalse (fun hc => h (Except.error.inj hc))
    | .ok _, .error _ => isFalse (fun hc => Except.noConfusion hc)
    | .error _, .ok _ => isFalse (fun hc => Except.noConfusion hc)

/-- `Card` from `src/card.rs`: the eight card kinds. -/
inductive Card where
  | Guard
  | Priest
  | Baron
  | Handmaid
  | Prince
  | King
  | Countess
  | Princess
deriving DecidableEq, Repr

/-- The discriminant values `Guard = 1, ..., Princess = 8` that Rust's
derived `Ord` compares by. -/
def Card.value : Card → Nat
  | .Guard => 1
  | .Priest => 2
  | .Baron => 3
  | .Handmaid => 4
  | .Prince => 5
  | .King => 6
  | .Countess => 7
  | .Princess => 8

/-- `Card::has_target` from `src/card.rs`. -/
def Card.has_target : Card → Bool
  | .Guard | .Priest | .Baron | .Prince | .King => true
  | _ => false

/-- `Deck` from `src/deck.rs`: a `Vec<Card>` whose *top* is the end of the
list (Rust `Vec::pop` removes from the back). -/
structure Deck where
  cards : List Card
deriving DecidableEq, Repr

/-- Remove the last element of a list, mirroring `Vec::pop`. -/
def popBack : List Card → Option (Card × List Card)
  | [] => none
  | [c] => some (c, [])
  | c :: c' :: cs =>
    match popBack (c' :: cs) with
    | some (x, rest) => some (x, c :: rest)
    | none => none

/-- `Deck::new` from `src/deck.rs`: the canonical 16-card deck in source
order. -/
def Deck.new : Deck :=
  ⟨[Card.Guard, Card.Guard, Card.Guard, Card.Guard, Card.Guard,
    Card.Priest, Card.Priest,
    Card.Baron, Card.Baron,
    Card.Handmaid, Card.Handmaid,
    Card.Prince, Card.Prince,
    Card.King,
    Card.Countess,
    Card.Princess]⟩

/-- `Deck::shuffle` from `src/deck.rs`.  The Rust code draws its
randomness from `rand::thread_rng()` (a thread-local global source) and
permutes `self.cards` in place; the embedding receives the resulting
order `sh` explicitly, standing for the permutation the RNG produced. -/
def Deck.shuffle (_d : Deck) (sh : List Card) : Deck := ⟨sh⟩

/-- `Deck::pop` from `src/deck.rs`. -/
def Deck.pop (d : Deck) : Option (Card × Deck) :=
  (popBack d.cards).map (fun p => (p.1, ⟨p.2⟩))

/-- `Vec::is_empty` on the deck's card vector (used by `Game::play_card`). -/
def Deck.is_empty (d : Deck) : Bool := d.cards.isEmpty

/-- `Player` from `src/player.rs`.  The Rust field `protected` is named
`protected_flag` here because `protected` is a Lean keyword. -/
structure Player where
  hand : List Card
  discards : List Card
  protected_flag : Bool
  active : Bool
deriving DecidableEq, Repr

/-- `Player::new` from `src/player.rs`. -/
def Player.new : Player :=
  { hand := [], discards := [], protected_flag := false, active := true }

/-- `Player::give_card` (`Vec::push` onto the hand). -/
def Player.give_card (p : Player) (card : Card) : Player :=
  { p with hand := p.hand ++ [card] }

/-- `Player::play_card` from `src/player.rs`: remove the first occurrence
of `card` from the hand and push it onto the discards; `none` models
`Err(())` (in which case the Rust code leaves the player untouched). -/
def Player.playCard (p : Player) (card : Card) : Option Player :=
  match p.hand.findIdx? (· == card) with
  | some index =>
    some { p with hand := p.hand.eraseIdx index, discards := p.discards ++ [card] }
  | none => none

/-- `Player::is_holding_card` from `src/player.rs`. -/
def Player.is_holding_card (p : Player) (card : Card) : Bool :=
  p.hand.contains card

/-- `Player::card` from `src/player.rs`: the single held card when the
hand has exactly one card. -/
def Player.card (p : Player) : Option Card :=
  if p.hand.length = 1 then p.hand.head? else none

/-- `Player::take_card` from `src/player.rs`: if the hand holds exactly
one card, push it onto the discards and clear the hand. -/
def Player.take_card (p : Player) : Option Card × Player :=
  match p.card with
  | some c => (some c, { p with discards := p.discards ++ [c], hand := [] })
  | none => (none, p)

/-- `Player::value_of_discards` from `src/player.rs`. -/
def Player.value_of_discards (p : Player) : Nat :=
  (p.discards.map Card.value).sum

/-- `Player::make_protected`. -/
def Player.make_protected (p : Player) : Player := { p with protected_flag := true }

/-- `Player::make_unprotected`. -/
def Player.make_unprotected (p : Player) : Player := { p with protected_flag := false }

/-- `Player::eliminate`. -/
def Player.eliminate (p : Player) : Player := { p with active := false }

/-- `PlayCardDetails` from `src/action.rs`.  Note that `PlayPrince`
carries a mandatory (non-`Option`) target index. -/
inductive PlayCardDetails where
  | PlayGuard (target_idx : Option Nat) (guess : Card)
  | PlayPriest (target_idx : Option Nat)
  | PlayBaron (target_idx : Option Nat)
  | PlayHandmaid
  | PlayPrince (target_idx : Nat)
  | PlayKing (target_idx : Option Nat)
  | PlayCountess
  | PlayPrincess
deriving DecidableEq, Repr

/-- `PlayCardDetails::card` from `src/action.rs`. -/
def PlayCardDetails.card : PlayCardDetails → Card
  | .PlayGuard _ _ => .Guard
  | .PlayPriest _ => .Priest
  | .PlayBaron _ => .Baron
  | .PlayHandmaid => .Handmaid
  | .PlayPrince _ => .Prince
  | .PlayKing _ => .King
  | .PlayCountess => .Countess
  | .PlayPrincess => .Princess

/-- `PlayCardDetails::target` from `src/action.rs`. -/
def PlayCardDetails.target : PlayCardDetails → Option Nat
  | .PlayGuard target_idx _ => target_idx
  | .PlayPriest target_idx => target_idx
  | .PlayBaron target_idx => target_idx
  | .PlayPrince target_idx => some target_idx
  | .PlayKing target_idx => target_idx
  | _ => none

/-- `Action` from `src/action.rs`. -/
inductive Action where
  | StartGame (players : Nat)
  | PlayCard (player_idx : Nat) (details : PlayCardDetails)
deriving DecidableEq, Repr

/-- `Event` from `src/event.rs`. -/
inductive Event where
  | NewGame (players : Nat)
  | RegisterPlayer (player_idx : Nat)
  | BurnCard
  | RemoveCardFromGame (card : Card)
  | DealCard (player_idx : Nat) (card : Card)
  | ReadyToPlay (player_idx : Nat)
  | PlayCard (player_idx : Nat) (card : Card)
  | Guess (target_idx : Nat) (guess : Card)
  | ShowCard (player_idx : Nat) (target_idx : Nat) (card : Card)
  | CompareHands (player_idx : Nat) (player_card : Card) (target_idx : Nat) (target_card : Card)
  | DiscardCard (target_idx : Nat) (card : Card)
  | SwapHands (player_idx : Nat) (player_card : Card) (target_idx : Nat) (target_card : Card)
  | EliminatePlayer (player_idx : Nat)
  | RevealCard (player_idx : Nat) (card : Card)
  | GameOver (winner_indices : List Nat)
deriving DecidableEq, Repr

/-- `GameState` from `src/game.rs`. -/
inductive GameState where
  | NotStarted
  | InProgress
  | Complete
deriving DecidableEq, Repr

/-- `GameError` from `src/game.rs`. -/
inductive GameError where
  | InvalidNumberOfPlayers (players : Nat)
  | GameNotInProgress
  | PlayerDoesNotExist (player_idx : Nat)
  | PlayedOutOfTurn (player_idx : Nat)
  | PlayerDoesNotHaveCard (player_idx : Nat) (card : Card)
  | MustProvideTarget (card : Card)
  | CannotTargetSelf (card : Card)
  | CannotTargetProtectedPlayer
  | CannotTargetEliminatedPlayer
  | CannotPlayWhileHoldingCountess (card : Card)
deriving DecidableEq, Repr

/-- `Game` from `src/game.rs`. -/
structure Game where
  deck : Deck
  burned_card : Option Card
  players : List Player
  turn_counter : Nat
  state : GameState
deriving DecidableEq, Repr

/-- `Game::new` from `src/game.rs`. -/
def Game.new : Game :=
  { deck := Deck.new, burned_card := none, players := [],
    turn_counter := 0, state := GameState.NotStarted }

/-- `self.players[i] = p` (in-bounds `Vec` store; out of bounds cannot
occur where it is used because the index was produced by a bounds check). -/
def Game.setP (g : Game) (i : Nat) (p : Player) : Game :=
  { g with players := g.players.set i p }

/-- `Game::is_game_in_progress` from `src/game.rs`. -/
def Game.is_game_in_progress (g : Game) : Except GameError Unit :=
  match g.state with
  | .NotStarted | .Complete => .error .GameNotInProgress
  | .InProgress => .ok ()

/-- `Game::is_it_players_turn` from `src/game.rs`. -/
def Game.is_it_players_turn (g : Game) (player_idx : Nat) : Except GameError Unit :=
  if g.turn_counter = player_idx then .ok ()
  else .error (.PlayedOutOfTurn player_idx)

/-- `Game::does_player_exist` from `src/game.rs`. -/
def Game.does_player_exist (g : Game) (player_idx : Nat) : Except GameError Unit :=
  if g.players.length ≤ player_idx then .error (.PlayerDoesNotExist player_idx)
  else .ok ()

/-- `Game::unprotected_targets` from `src/game.rs`. -/
def Game.unprotected_targets (g : Game) (player_idx : Nat) (include_self : Bool) : List Nat :=
  let unprotected_players := (List.range g.players.length).filter (fun idx =>
    match g.players[idx]? with
    | some p => p.active && !p.protected_flag
    | none => false)
  if include_self then unprotected_players
  else unprotected_players.filter (fun idx => idx ≠ player_idx)

/-- `Game::active_players` from `src/game.rs`. -/
def Game.active_players (g : Game) : List Nat :=
  (List.range g.players.length).filter (fun idx =>
    match g.players[idx]? with
    | some p => p.active
    | none => false)

/-- `Game::is_player_allowed_to_play_card` from `src/game.rs`.  The hand
lookup only happens for Prince/King, so only then can the (never reached
in `play_card`, which validates the index first) out-of-bounds panic
occur; `none` models that panic. -/
def Game.is_player_allowed_to_play_card (g : Game) (player_idx : Nat) (card : Card) :
    Option (Except GameError Unit) :=
  if card = .Prince ∨ card = .King then
    match g.players[player_idx]? with
    | some p =>
      if p.is_holding_card .Countess then
        some (.error (.CannotPlayWhileHoldingCountess card))
      else some (.ok ())
    | none => none
  else some (.ok ())

/-- `Game::is_target_valid` from `src/game.rs`.  Total: every hand lookup
is guarded by the existence check that precedes it in the source. -/
def Game.is_target_valid (g : Game) (player_idx : Nat) (target_idx : Option Nat)
    (card : Card) : Except GameError Unit :=
  if card.has_target = true ∧
      g.unprotected_targets player_idx (card = .Prince) ≠ [] ∧ target_idx = none then
    .error (.MustProvideTarget card)
  else if card ≠ .Prince ∧ target_idx = some player_idx then
    .error (.CannotTargetSelf card)
  else
    match target_idx with
    | none => .ok ()
    | some idx =>
      if h : idx < g.players.length then
        if (g.players.get ⟨idx, h⟩).protected_flag then
          .error .CannotTargetProtectedPlayer
        else if !(g.players.get ⟨idx, h⟩).active then
          .error .CannotTargetEliminatedPlayer
        else .ok ()
      else .error (.PlayerDoesNotExist idx)

/-- `Game::play_card_from_player_hand` from `src/game.rs`. -/
def Game.play_card_from_player_hand (g : Game) (player_idx : Nat) (card : Card) :
    Option (Except GameError (Game × Event)) :=
  match g.players[player_idx]? with
  | none => none
  | some p =>
    match p.playCard card with
    | some p' => some (.ok (g.setP player_idx p', .PlayCard player_idx card))
    | none => some (.error (.PlayerDoesNotHaveCard player_idx card))

/-- `Game::draw_and_give_card_to_player` from `src/game.rs`.  Note the
source computes `self.deck.pop().or(self.burned_card).take().unwrap()`:
`.take()` acts on the *temporary* option produced by `.or`, so
`self.burned_card` itself is never cleared even when it supplies the
drawn card. -/
def Game.draw_and_give_card_to_player (g : Game) (player_idx : Nat) :
    Option (Game × Event) :=
  let popped := g.deck.pop
  let cardOpt : Option Card := match popped with
    | some pr => some pr.1
    | none => g.burned_card
  let g1 : Game := match popped with
    | some pr => { g with deck := pr.2 }
    | none => g
  match cardOpt with
  | none => none
  | some card =>
    match g1.players[player_idx]? with
    | none => none
    | some p => some (g1.setP player_idx (p.give_card card), .DealCard player_idx card)

/-- `Game::start_player_turn` from `src/game.rs`. -/
def Game.start_player_turn (g : Game) (player_idx : Nat) : Option (Game × Event) :=
  let g1 := { g with turn_counter := player_idx }
  match g1.players[player_idx]? with
  | none => none
  | some p => some (g1.setP player_idx p.make_unprotected, .ReadyToPlay player_idx)

/-- `Game::discard_hand` from `src/game.rs`. -/
def Game.discard_hand (g : Game) (target_idx : Nat) : Option (Game × Event) :=
  match g.players[target_idx]? with
  | none => none
  | some p =>
    match p.take_card with
    | (some card, p') => some (g.setP target_idx p', .DiscardCard target_idx card)
    | (none, _) => none

/-- `Game::eliminate_player` from `src/game.rs`. -/
def Game.eliminate_player (g : Game) (player_idx : Nat) : Option (Game × Event) :=
  match g.players[player_idx]? with
  | none => none
  | some p => some (g.setP player_idx p.eliminate, .EliminatePlayer player_idx)

/-- `Game::end_game_with_winners` from `src/game.rs`. -/
def Game.end_game_with_winners (g : Game) (winner_indices : List Nat) : Game × Event :=
  ({ g with state := .Complete }, .GameOver winner_indices)

/-- `Game::reveal_eliminated_player_card` from `src/game.rs`. -/
def Game.reveal_eliminated_player_card (g : Game) (player_idx : Nat) :
    Option (Game × Event) :=
  match g.players[player_idx]? with
  | none => none
  | some p =>
    match p.take_card with
    | (some card, p') => some (g.setP player_idx p', .RevealCard player_idx card)
    | (none, _) => none

/-- The loop body of `Game::next_player`, made explicit with a fuel
bound: the source initialises `player_idx = (turn_counter + 1) % n` and
then, while `players[player_idx]` is inactive, reassigns `player_idx`
to `(turn_counter + 1) % n` — the *same* value every iteration.  Running
out of fuel (`none`) therefore corresponds to the loop never
terminating. -/
def nextPlayerLoop (g : Game) : Nat → Nat → Option Nat
  | 0, _ => none
  | fuel + 1, player_idx =>
    match g.players[player_idx]? with
    | none => none
    | some p =>
      if p.active then some player_idx
      else nextPlayerLoop g fuel ((g.turn_counter + 1) % g.players.length)

/-- `Game::next_player` from `src/game.rs`, bounded by `fuel` loop
iterations. -/
def Game.next_player_fuel (g : Game) (fuel : Nat) : Option Nat :=
  nextPlayerLoop g fuel ((g.turn_counter + 1) % g.players.length)

/-- `Game::next_player` from `src/game.rs`, summarised: because the loop
reassigns the same candidate index on every iteration, it returns
`(turn_counter + 1) % players.len()` when that seat is active and never
terminates otherwise.  `none` models both that nontermination and the
out-of-bounds panic on an empty player list; the agreement with the
literal loop is proved in `next_player_eq_fuel` below. -/
def Game.next_player (g : Game) : Option Nat :=
  let player_idx := (g.turn_counter + 1) % g.players.length
  match g.players[player_idx]? with
  | none => none
  | some p => if p.active then some player_idx else none

/-- Insertion into a list sorted by a boolean comparison (stable, like
Rust's `sort`). -/
def insertLe (le : Nat × Nat × Nat → Nat × Nat × Nat → Bool) (x : Nat × Nat × Nat) :
    List (Nat × Nat × Nat) → List (Nat × Nat × Nat)
  | [] => [x]
  | y :: ys => if le x y then x :: y :: ys else y :: insertLe le x ys

/-- Stable insertion sort (Rust's `sort` is a stable ascending sort; the
keys here are pairwise distinct in their third component so any stable
ascending sort produces the identical list). -/
def sortLe (le : Nat × Nat × Nat → Nat × Nat × Nat → Bool) :
    List (Nat × Nat × Nat) → List (Nat × Nat × Nat)
  | [] => []
  | x :: xs => insertLe le x (sortLe le xs)

/-- Lexicographic comparison of `(Card, u32, usize)` score triples, with
the card replaced by its discriminant value (Rust's derived `Ord` on
`Card` compares discriminants). -/
def scoreLe (a b : Nat × Nat × Nat) : Bool :=
  if a.1 ≠ b.1 then a.1 < b.1
  else if a.2.1 ≠ b.2.1 then a.2.1 < b.2.1
  else a.2.2 ≤ b.2.2

/-- The score-collection loop of `Game::calculate_winners`: one
`(card value, value_of_discards, idx)` triple per active player, in
seat order. -/
def scoreTriples (g : Game) : List Nat → Option (List (Nat × Nat × Nat))
  | [] => some []
  | idx :: rest =>
    match g.players[idx]? with
    | none => none
    | some p =>
      match p.card with
      | none => none
      | some c =>
        match scoreTriples g rest with
        | none => none
        | some scores => some ((c.value, p.value_of_discards, idx) :: scores)

/-- `Game::calculate_winners` from `src/game.rs`: build
`(card, value_of_discards, idx)` triples for the active players, sort
ascending, take `scores[0]` (the *minimum* of the ascending sort), and
keep every triple equal to it in its first two components. -/
def Game.calculate_winners (g : Game) : Option (List Nat) :=
  match scoreTriples g g.active_players with
  | none => none
  | some scores =>
    match sortLe scoreLe scores with
    | [] => none
    | high :: tail =>
      some (((high :: tail).filter (fun s => s.1 = high.1 && s.2.1 = high.2.1)).map
        (fun s => s.2.2))

/-- `Game::play_guard` from `src/game.rs`. -/
def Game.play_guard (g : Game) (target_idx : Nat) (guess : Card) :
    Option (Game × List Event) :=
  match g.players[target_idx]? with
  | none => none
  | some p =>
    if p.is_holding_card guess then
      match g.eliminate_player target_idx with
      | none => none
      | some (g1, ev1) =>
        match g1.reveal_eliminated_player_card target_idx with
        | none => none
        | some (g2, ev2) => some (g2, [Event.Guess target_idx guess, ev1, ev2])
    else some (g, [Event.Guess target_idx guess])

/-- `Game::play_priest` from `src/game.rs`. -/
def Game.play_priest (g : Game) (player_idx target_idx : Nat) :
    Option (Game × List Event) :=
  match g.players[target_idx]? with
  | none => none
  | some p =>
    match p.card with
    | none => none
    | some card => some (g, [Event.ShowCard player_idx target_idx card])

/-- `Game::play_baron` from `src/game.rs`. -/
def Game.play_baron (g : Game) (player_idx target_idx : Nat) :
    Option (Game × List Event) :=
  match g.players[player_idx]? with
  | none => none
  | some pl =>
    match pl.card with
    | none => none
    | some player_card =>
      match g.players[target_idx]? with
      | none => none
      | some tg =>
        match tg.card with
        | none => none
        | some target_card =>
          let cmp := Event.CompareHands player_idx player_card target_idx target_card
          match (if player_card.value < target_card.value then some player_idx
                 else if target_card.value < player_card.value then some target_idx
                 else none : Option Nat) with
          | some losing_player_idx =>
            match g.eliminate_player losing_player_idx with
            | none => none
            | some (g1, ev1) =>
              match g1.reveal_eliminated_player_card losing_player_idx with
              | none => none
              | some (g2, ev2) => some (g2, [cmp, ev1, ev2])
          | none => some (g, [cmp])

/-- `Game::play_handmaid` from `src/game.rs`. -/
def Game.play_handmaid (g : Game) (player_idx : Nat) : Option (Game × List Event) :=
  match g.players[player_idx]? with
  | none => none
  | some p => some (g.setP player_idx p.make_protected, [])

/-- `Game::play_prince` from `src/game.rs`. -/
def Game.play_prince (g : Game) (target_idx : Nat) : Option (Game × List Event) :=
  match g.players[target_idx]? with
  | none => none
  | some p =>
    match p.card with
    | none => none
    | some card =>
      match g.discard_hand target_idx with
      | none => none
      | some (g1, ev1) =>
        if card = .Princess then
          match g1.eliminate_player target_idx with
          | none => none
          | some (g2, ev2) => some (g2, [ev1, ev2])
        else
          match g1.draw_and_give_card_to_player target_idx with
          | none => none
          | some (g2, ev2) => some (g2, [ev1, ev2])

/-- `Game::play_king` from `src/game.rs`: both hands are taken with
`Player::take_card` (which pushes the taken card onto that player's
discards) and then handed to the other player. -/
def Game.play_king (g : Game) (player_idx target_idx : Nat) :
    Option (Game × List Event) :=
  match g.players[player_idx]? with
  | none => none
  | some pl =>
    match pl.take_card with
    | (none, _) => none
    | (some player_card, pl') =>
      let g1 := g.setP player_idx pl'
      match g1.players[target_idx]? with
      | none => none
      | some tg =>
        match tg.take_card with
        | (none, _) => none
        | (some target_card, tg') =>
          let g2 := g1.setP target_idx tg'
          match g2.players[player_idx]? with
          | none => none
          | some p1 =>
            let g3 := g2.setP player_idx (p1.give_card target_card)
            match g3.players[target_idx]? with
            | none => none
            | some p2 =>
              some (g3.setP target_idx (p2.give_card player_card),
                [Event.SwapHands player_idx player_card target_idx target_card])

/-- `Game::play_countess` from `src/game.rs`. -/
def Game.play_countess (g : Game) : Option (Game × List Event) := some (g, [])

/-- `Game::play_princess` from `src/game.rs`. -/
def Game.play_princess (g : Game) (player_idx : Nat) : Option (Game × List Event) :=
  match g.eliminate_player player_idx with
  | none => none
  | some (g1, ev1) => some (g1, [ev1])

/-- The per-card dispatch in `Game::play_card` (the `match details`
block), including the `_ => Ok(Vec::new())` arm for targeted cards
played with no target. -/
def Game.card_effect (g : Game) (player_idx : Nat) (details : PlayCardDetails) :
    Option (Game × List Event) :=
  match details with
  | .PlayGuard (some target_idx) guess => g.play_guard target_idx guess
  | .PlayPriest (some target_idx) => g.play_priest player_idx target_idx
  | .PlayBaron (some target_idx) => g.play_baron player_idx target_idx
  | .PlayHandmaid => g.play_handmaid player_idx
  | .PlayPrince target_idx => g.play_prince target_idx
  | .PlayKing (some target_idx) => g.play_king player_idx target_idx
  | .PlayCountess => g.play_countess
  | .PlayPrincess => g.play_princess player_idx
  | _ => some (g, [])

/-- The post-effect progression of `Game::play_card` (steps after the
card effect: sole-survivor check, empty-deck tie-break, or turn
advancement), together with the event-list assembly and the final `Ok`.
After this point the source can only panic or succeed, never return a
game error. -/
def Game.play_card_rest (g : Game) (player_idx : Nat) (details : PlayCardDetails)
    (ev1 : Event) : Option (Game × List Event) :=
  match g.card_effect player_idx details with
  | none => none
  | some (g2, evs2) =>
    if (g2.active_players).length = 1 then
      let r := g2.end_game_with_winners g2.active_players
      some (r.1, ev1 :: evs2 ++ [r.2])
    else if g2.deck.is_empty then
      match g2.calculate_winners with
      | none => none
      | some winners =>
        let r := g2.end_game_with_winners winners
        some (r.1, ev1 :: evs2 ++ [r.2])
    else
      match g2.next_player with
      | none => none
      | some next_player =>
        match g2.draw_and_give_card_to_player next_player with
        | none => none
        | some (g3, ev3) =>
          match g3.start_player_turn next_player with
          | none => none
          | some (g4, ev4) => some (g4, ev1 :: evs2 ++ [ev3, ev4])

/-- `Game::play_card` from `src/game.rs`. -/
def Game.play_card (g : Game) (player_idx : Nat) (details : PlayCardDetails) :
    Option (Game × Except GameError (List Event)) :=
  match g.is_game_in_progress with
  | .error e => some (g, .error e)
  | .ok () =>
  match g.does_player_exist player_idx with
  | .error e => some (g, .error e)
  | .ok () =>
  match g.is_it_players_turn player_idx with
  | .error e => some (g, .error e)
  | .ok () =>
  match g.is_target_valid player_idx details.target details.card with
  | .error e => some (g, .error e)
  | .ok () =>
  match g.is_player_allowed_to_play_card player_idx details.card with
  | none => none
  | some (.error e) => some (g, .error e)
  | some (.ok ()) =>
  match g.play_card_from_player_hand player_idx details.card with
  | none => none
  | some (.error e) => some (g, .error e)
  | some (.ok (g1, ev1)) =>
  match g1.play_card_rest player_idx details ev1 with
  | none => none
  | some (g', evs) => some (g', .ok evs)

/-- The deal loop of `Game::start_game` (`for player_idx in 0..players`),
accumulating the `DealCard` events. -/
def Game.deal_loop (g : Game) (evs : List Event) : List Nat → Option (Game × List Event)
  | [] => some (g, evs)
  | idx :: rest =>
    match g.draw_and_give_card_to_player idx with
    | none => none
    | some (g', ev) => Game.deal_loop g' (evs ++ [ev]) rest

/-- The burn step of `Game::start_game`: `self.burned_card =
self.deck.pop()` (a plain assignment, so an empty deck leaves `None`
burned rather than panicking). -/
def Game.burn_step (g : Game) : Game :=
  match g.deck.pop with
  | some (c, d') => { g with deck := d', burned_card := some c }
  | none => { g with burned_card := none }

/-- The two-player extra step of `Game::start_game`: pop three cards
(each `unwrap`ped) and record them as `RemoveCardFromGame` events. -/
def Game.remove_three_step (g : Game) (events : List Event) :
    Option (Game × List Event) :=
  match g.deck.pop with
  | none => none
  | some (c1, d1) =>
    match d1.pop with
    | none => none
    | some (c2, d2) =>
      match d2.pop with
      | none => none
      | some (c3, d3) =>
        some ({ g with deck := d3 },
          events ++ [Event.RemoveCardFromGame c1, Event.RemoveCardFromGame c2,
                     Event.RemoveCardFromGame c3])

/-- The tail of `Game::start_game`: the per-seat deal loop, the extra
deal to seat 0, the start of seat 0's turn, and the phase change. -/
def Game.start_tail (g3 : Game) (events2 : List Event) (players : Nat) :
    Option (Game × List Event) :=
  match Game.deal_loop g3 events2 (List.range players) with
  | none => none
  | some (g4, events3) =>
    match g4.draw_and_give_card_to_player 0 with
    | none => none
    | some (g5, dealEv) =>
      match g5.start_player_turn 0 with
      | none => none
      | some (g6, readyEv) =>
        some ({ g6 with state := .InProgress }, events3 ++ [dealEv, readyEv])

/-- The reset step of `Game::start_game`: replace the deck by the
freshly shuffled one and the players by `players` new players. -/
def Game.reset_step (g : Game) (sh : List Card) (players : Nat) : Game :=
  { g with deck := Deck.new.shuffle sh,
           players := List.replicate players Player.new }

/-- Everything `Game::start_game` does after the player-count check; the
source can only panic or succeed past that point, never return an error. -/
def Game.start_game_body (g0 : Game) (sh : List Card) (players : Nat) :
    Option (Game × List Event) :=
  let events0 := [Event.NewGame players] ++
    (List.range players).map Event.RegisterPlayer
  let g1 : Game := g0.reset_step sh players
  let g2 := g1.burn_step
  let events1 := events0 ++ [Event.BurnCard]
  match (if players = 2 then g2.remove_three_step events1
         else some (g2, events1)) with
  | none => none
  | some (g3, events2) => Game.start_tail g3 events2 players

/-- `Game::start_game` from `src/game.rs`.  `sh` is the order the shuffle
leaves the freshly reset deck in (see `Deck.shuffle`). -/
def Game.start_game (g : Game) (sh : List Card) (players : Nat) :
    Option (Game × Except GameError (List Event)) :=
  if players < 2 ∨ players > 4 then
    some (g, .error (.InvalidNumberOfPlayers players))
  else
    match g.start_game_body sh players with
    | none => none
    | some (g', evs) => some (g', .ok evs)

/-- `Game::perform_action` from `src/game.rs`. -/
def Game.perform_action (g : Game) (sh : List Card) (a : Action) :
    Option (Game × Except GameError (List Event)) :=
  match a with
  | .StartGame players => g.start_game sh players
  | .PlayCard player_idx details => g.play_card player_idx details

/-! ## Card accounting -/

/-- The multiset of cards a player holds or has discarded. -/
def playerCards (p : Player) : Multiset Card :=
  (p.hand : Multiset Card) + (p.discards : Multiset Card)

/-- The multiset of all cards recorded anywhere in the game state:
deck, burned card, every hand and every discard pile. -/
def gameCards (g : Game) : Multiset Card :=
  (g.deck.cards : Multiset Card) +
    (g.burned_card.elim 0 (fun c => {c})) +
    (g.players.map playerCards).sum

/-- The fixed 16-card composition, as a multiset. -/
def fullComposition : Multiset Card := (Deck.new.cards : Multiset Card)

/-- The cards named by `RemoveCardFromGame` events in an event list. -/
def removedCards (evs : List Event) : Multiset Card :=
  (evs.filterMap (fun ev =>
    match ev with
    | .RemoveCardFromGame c => some c
    | _ => none) : List Card)

/-! ## Concrete states used to exercise the engine -/

/-- The canonical order: the shuffle outcome in which the freshly reset
deck is left exactly as `Deck::new` built it. -/
def canonicalOrder : List Card := Deck.new.cards

/-- A shuffle outcome (a permutation of the canonical deck) for a
three-player game that deals seat 0 the King and the Priest, seats 1 and
2 a Guard each, and burns the Countess. -/
def kingShuffle : List Card :=
  [.Guard, .Guard, .Guard, .Priest, .Baron, .Baron, .Handmaid, .Handmaid,
   .Prince, .Prince, .Princess, .Priest, .Guard, .Guard, .King, .Countess]

/-- An in-progress two-player endgame: the deck is empty after the next
play, seat 0 (to move) holds Guard and Princess, seat 1 holds the
Priest.  Seat 0's key after playing the Guard is (8, 1); seat 1's is
(2, 0). -/
def tieBreakGame : Game :=
  { deck := ⟨[]⟩, burned_card := some .Countess,
    players := [
      { hand := [.Guard, .Princess], discards := [], protected_flag := false,
        active := true },
      { hand := [.Priest], discards := [], protected_flag := false,
        active := true }],
    turn_counter := 0, state := .InProgress }

/-- A post-effect three-player state in which seat 1 (the seat
immediately after the turn counter) is eliminated while seats 0 and 2
are active and the deck is non-empty — exactly the situation the
turn-advancement step must skip over. -/
def skipGame : Game :=
  { deck := ⟨[.Guard]⟩, burned_card := some .Countess,
    players := [
      { hand := [.Guard], discards := [], protected_flag := false,
        active := true },
      { hand := [], discards := [.Priest], protected_flag := false,
        active := false },
      { hand := [.Baron], discards := [], protected_flag := false,
        active := true }],
    turn_counter := 0, state := .InProgress }

/-! ## Helper lemmas -/

/-- Coercion of a cons cell to a multiset, phrased additively. -/
theorem coe_cons (a : Card) (l : List Card) :
    ((a :: l : List Card) : Multiset Card) = ↑l + {a} := by
  rw [← Multiset.cons_coe, add_comm, Multiset.singleton_add]

theorem popBack_eq_none_iff {l : List Card} : popBack l = none ↔ l = [] := by
  constructor
  · intro h
    match l with
    | [] => rfl
    | [c] => simp [popBack] at h
    | c :: c' :: cs =>
      rw [popBack] at h
      revert h
      cases hrec : popBack (c' :: cs) with
      | some p => simp
      | none => exact fun _ => absurd (popBack_eq_none_iff.mp hrec) (by simp)
  · rintro rfl; rfl

theorem popBack_some_spec {l rest : List Card} {c : Card}
    (h : popBack l = some (c, rest)) :
    (l : Multiset Card) = ↑rest + {c} ∧ rest.length + 1 = l.length := by
  induction l generalizing c rest with
  | nil => simp [popBack] at h
  | cons a t ih =>
    cases t with
    | nil =>
      rw [popBack] at h
      simp only [Option.some.injEq, Prod.mk.injEq] at h
      obtain ⟨rfl, rfl⟩ := h
      exact ⟨by rw [coe_cons], rfl⟩
    | cons b t' =>
      rw [popBack] at h
      revert h
      cases hrec : popBack (b :: t') with
      | none => exact fun h => Option.noConfusion h
      | some p =>
        obtain ⟨x, r⟩ := p
        simp only [Option.some.injEq, Prod.mk.injEq]
        rintro ⟨rfl, rfl⟩
        obtain ⟨hm, hl⟩ := ih hrec
        refine ⟨?_, by simpa using congrArg Nat.succ hl⟩
        rw [coe_cons, hm, coe_cons]
        abel

theorem popBack_of_length_pos (l : List Card) (h : 0 < l.length) :
    ∃ c rest, popBack l = some (c, rest) := by
  cases hp : popBack l with
  | none =>
    rw [popBack_eq_none_iff.mp hp] at h
    simp at h
  | some p => exact ⟨p.1, p.2, by simp⟩

/-- A list is its `eraseIdx` plus the erased element, as multisets. -/
theorem multiset_eraseIdx (l : List Card) (i : Nat) (h : i < l.length) :
    (l : Multiset Card) = ↑(l.eraseIdx i) + {l.get ⟨i, h⟩} := by
  induction l generalizing i with
  | nil => simp at h
  | cons a t ih =>
    cases i with
    | zero => rw [List.eraseIdx_cons_zero, coe_cons]; rfl
    | succ j =>
      have hj : j < t.length := by simpa using h
      rw [List.eraseIdx_cons_succ, coe_cons, coe_cons, ih j hj]
      have : (a :: t).get ⟨j + 1, h⟩ = t.get ⟨j, hj⟩ := rfl
      rw [this]
      abel

/-- `Player::play_card` (hand → discards) preserves the player's card
multiset. -/
theorem playerCards_playCard {p p' : Player} {c : Card}
    (h : p.playCard c = some p') : playerCards p' = playerCards p := by
  unfold Player.playCard at h
  revert h
  cases hidx : p.hand.findIdx? (· == c) with
  | none => intro h; exact absurd h (by simp)
  | some i =>
    intro h
    obtain rfl : { p with hand := p.hand.eraseIdx i,
                          discards := p.discards ++ [c] } = p' := by
      simpa using h
    obtain ⟨hlt, hfind⟩ := List.findIdx?_eq_some_iff_findIdx_eq.mp hidx
    have hc : p.hand.get ⟨i, hlt⟩ = c := by
      have := @List.findIdx_getElem _ (· == c) p.hand
        (by rw [hfind]; exact hlt)
      simp only [hfind] at this
      simpa using this
    have hsplit := multiset_eraseIdx p.hand i hlt
    rw [hc] at hsplit
    unfold playerCards
    rw [hsplit, ← Multiset.coe_add]
    push_cast
    abel

/-- `Player::card` returning `some` pins down the hand. -/
theorem hand_of_card_some {p : Player} {c : Card} (h : p.card = some c) :
    p.hand = [c] := by
  unfold Player.card at h
  by_cases hl : p.hand.length = 1
  · rw [if_pos hl] at h
    obtain ⟨a, ha⟩ := List.length_eq_one.mp hl
    rw [ha] at h ⊢
    simp only [List.head?, Option.some.injEq] at h
    rw [h]
  · rw [if_neg hl] at h
    exact absurd h (by simp)

/-- `Player::take_card` (hand → discards) preserves the player's card
multiset when it succeeds. -/
theorem playerCards_take_card {p p' : Player} {c : Card}
    (h : p.take_card = (some c, p')) : playerCards p' = playerCards p := by
  unfold Player.take_card at h
  revert h
  cases hc : p.card with
  | none => intro h; exact absurd h (by simp [Prod.ext_iff])
  | some c' =>
    intro h
    simp only [Prod.mk.injEq, Option.some.injEq] at h
    obtain ⟨rfl, rfl⟩ := h
    have hh := hand_of_card_some hc
    unfold playerCards
    rw [hh]
    simp only [← Multiset.coe_add]
    push_cast
    abel

/-- Setting seat `i` replaces that player's contribution to the summed
player-card multiset. -/
theorem sum_playerCards_set (ps : List Player) (i : Nat) (p p' : Player)
    (h : ps[i]? = some p) :
    ((ps.set i p').map playerCards).sum + playerCards p
      = (ps.map playerCards).sum + playerCards p' := by
  induction ps generalizing i with
  | nil => simp at h
  | cons a t ih =>
    cases i with
    | zero =>
      obtain rfl : a = p := by simpa using h
      simp only [List.set, List.map, List.sum_cons]
      abel
    | succ j =>
      have h' : t[j]? = some p := by simpa using h
      simp only [List.set, List.map, List.sum_cons]
      have hrec := ih j h'
      calc playerCards a + ((t.set j p').map playerCards).sum + playerCards p
          = playerCards a + (((t.set j p').map playerCards).sum + playerCards p) := by abel
        _ = playerCards a + ((t.map playerCards).sum + playerCards p') := by rw [hrec]
        _ = playerCards a + (t.map playerCards).sum + playerCards p' := by abel

/-- `Game.setP` rewrites `gameCards` by swapping one player's
contribution. -/
theorem gameCards_setP {g : Game} {i : Nat} {p : Player} (p' : Player)
    (h : g.players[i]? = some p) :
    gameCards (g.setP i p') + playerCards p = gameCards g + playerCards p' := by
  unfold gameCards Game.setP
  have hrec := sum_playerCards_set g.players i p p' h
  calc (g.deck.cards : Multiset Card) + g.burned_card.elim 0 (fun c => {c}) +
        ((g.players.set i p').map playerCards).sum + playerCards p
      = (g.deck.cards : Multiset Card) + g.burned_card.elim 0 (fun c => {c}) +
        (((g.players.set i p').map playerCards).sum + playerCards p) := by abel
    _ = (g.deck.cards : Multiset Card) + g.burned_card.elim 0 (fun c => {c}) +
        ((g.players.map playerCards).sum + playerCards p') := by rw [hrec]
    _ = (g.deck.cards : Multiset Card) + g.burned_card.elim 0 (fun c => {c}) +
        (g.players.map playerCards).sum + playerCards p' := by abel

/-- Replacing a player by one with the same card multiset preserves
`gameCards`. -/
theorem gameCards_setP_eq {g : Game} {i : Nat} {p : Player} (p' : Player)
    (h : g.players[i]? = some p) (hpc : playerCards p' = playerCards p) :
    gameCards (g.setP i p') = gameCards g := by
  have hs := gameCards_setP p' h
  rw [hpc] at hs
  exact add_right_cancel hs

theorem playerCards_give_card (p : Player) (c : Card) :
    playerCards (p.give_card c) = playerCards p + {c} := by
  unfold playerCards Player.give_card
  simp only [← Multiset.coe_add]
  push_cast
  abel

theorem playerCards_eliminate (p : Player) :
    playerCards p.eliminate = playerCards p := rfl

theorem playerCards_make_protected (p : Player) :
    playerCards p.make_protected = playerCards p := rfl

theorem playerCards_make_unprotected (p : Player) :
    playerCards p.make_unprotected = playerCards p := rfl

/-- `Game::play_card_from_player_hand` preserves the card multiset and
never touches the deck or the burned card. -/
theorem play_card_from_player_hand_spec {g g' : Game} {i : Nat} {card : Card} {ev : Event}
    (h : g.play_card_from_player_hand i card = some (.ok (g', ev))) :
    gameCards g' = gameCards g ∧ g'.deck = g.deck ∧ g'.burned_card = g.burned_card := by
  unfold Game.play_card_from_player_hand at h
  revert h
  cases hp : g.players[i]? with
  | none => intro h; exact absurd h (by simp)
  | some p =>
    intro h
    simp only [] at h
    cases hpc : p.playCard card with
    | none => rw [hpc] at h; simp at h
    | some p' =>
      rw [hpc] at h
      simp only [Option.some.injEq, Except.ok.injEq, Prod.mk.injEq] at h
      obtain ⟨⟨rfl, -⟩, -⟩ := And.intro h trivial
      exact ⟨gameCards_setP_eq p' hp (playerCards_playCard hpc), rfl, rfl⟩

/-- `Game::eliminate_player` preserves the card multiset, deck and
burned card. -/
theorem eliminate_player_spec {g g' : Game} {i : Nat} {ev : Event}
    (h : g.eliminate_player i = some (g', ev)) :
    gameCards g' = gameCards g ∧ g'.deck = g.deck := by
  unfold Game.eliminate_player at h
  revert h
  cases hp : g.players[i]? with
  | none => intro h; exact absurd h (by simp)
  | some p =>
    intro h
    simp only [Option.some.injEq, Prod.mk.injEq] at h
    obtain ⟨rfl, -⟩ := h
    exact ⟨gameCards_setP_eq p.eliminate hp rfl, rfl⟩

/-- `Game::reveal_eliminated_player_card` preserves the card multiset,
deck and burned card. -/
theorem reveal_spec {g g' : Game} {i : Nat} {ev : Event}
    (h : g.reveal_eliminated_player_card i = some (g', ev)) :
    gameCards g' = gameCards g ∧ g'.deck = g.deck := by
  unfold Game.reveal_eliminated_player_card at h
  revert h
  cases hp : g.players[i]? with
  | none => intro h; exact absurd h (by simp)
  | some p =>
    intro h
    simp only [] at h
    cases htc : p.take_card with
    | mk cOpt p' =>
      rw [htc] at h
      cases cOpt with
      | none => simp at h
      | some c =>
        simp only [Option.some.injEq, Prod.mk.injEq] at h
        obtain ⟨rfl, -⟩ := h
        exact ⟨gameCards_setP_eq p' hp (playerCards_take_card htc), rfl⟩

/-- `Game::discard_hand` preserves the card multiset, deck and burned
card. -/
theorem discard_hand_spec {g g' : Game} {i : Nat} {ev : Event}
    (h : g.discard_hand i = some (g', ev)) :
    gameCards g' = gameCards g ∧ g'.deck = g.deck := by
  unfold Game.discard_hand at h
  revert h
  cases hp : g.players[i]? with
  | none => intro h; exact absurd h (by simp)
  | some p =>
    intro h
    simp only [] at h
    cases htc : p.take_card with
    | mk cOpt p' =>
      rw [htc] at h
      cases cOpt with
      | none => simp at h
      | some c =>
        simp only [Option.some.injEq, Prod.mk.injEq] at h
        obtain ⟨rfl, -⟩ := h
        exact ⟨gameCards_setP_eq p' hp (playerCards_take_card htc), rfl⟩

/-- `Game::start_player_turn` preserves the card multiset, deck and
burned card. -/
theorem start_player_turn_spec {g g' : Game} {i : Nat} {ev : Event}
    (h : g.start_player_turn i = some (g', ev)) :
    gameCards g' = gameCards g ∧ g'.deck = g.deck := by
  unfold Game.start_player_turn at h
  simp only [] at h
  revert h
  cases hp : g.players[i]? with
  | none => intro h; exact absurd h (by simp)
  | some p =>
    intro h
    simp only [Option.some.injEq, Prod.mk.injEq] at h
    obtain ⟨rfl, -⟩ := h
    have hp' : ({ g with turn_counter := i } : Game).players[i]? = some p := hp
    refine ⟨?_, rfl⟩
    have hsame : gameCards ({ g with turn_counter := i } : Game) = gameCards g := rfl
    rw [← hsame]
    exact gameCards_setP_eq p.make_unprotected hp' rfl

/-- `Game::draw_and_give_card_to_player` on a non-empty deck moves the
top card of the deck into the target hand: the card multiset is
preserved and the deck shrinks by one. -/
theorem draw_nonempty_spec {g g' : Game} {i : Nat} {ev : Event}
    (hd : g.deck.cards ≠ [])
    (h : g.draw_and_give_card_to_player i = some (g', ev)) :
    gameCards g' = gameCards g ∧ g'.deck.cards.length + 1 = g.deck.cards.length ∧
      g'.burned_card = g.burned_card := by
  obtain ⟨c, rest, hpop⟩ := popBack_of_length_pos
    g.deck.cards (by cases hcc : g.deck.cards with
      | nil => exact absurd hcc hd
      | cons a t => simp)
  obtain ⟨hm, hlen⟩ := popBack_some_spec hpop
  unfold Game.draw_and_give_card_to_player at h
  rw [show g.deck.pop = some (c, ⟨rest⟩) by
    unfold Deck.pop; rw [hpop]; rfl] at h
  revert h
  simp only []
  cases hp : ({ g with deck := (⟨rest⟩ : Deck) } : Game).players[i]? with
  | none => intro h; exact absurd h (by simp)
  | some p =>
    intro h
    simp only [Option.some.injEq, Prod.mk.injEq] at h
    obtain ⟨rfl, -⟩ := h
    refine ⟨?_, by simpa using hlen, rfl⟩
    have hmid := gameCards_setP (p.give_card c) hp
    rw [playerCards_give_card] at hmid
    have hglue : gameCards ({ g with deck := (⟨rest⟩ : Deck) } : Game) + {c}
        = gameCards g := by
      unfold gameCards
      simp only []
      rw [hm]
      abel
    calc gameCards (({ g with deck := (⟨rest⟩ : Deck) } : Game).setP i (p.give_card c))
        = gameCards (({ g with deck := (⟨rest⟩ : Deck) } : Game).setP i (p.give_card c))
            + playerCards p - playerCards p := by
          rw [add_tsub_cancel_right]
      _ = gameCards ({ g with deck := (⟨rest⟩ : Deck) } : Game) + (playerCards p + {c})
            - playerCards p := by rw [hmid]
      _ = gameCards ({ g with deck := (⟨rest⟩ : Deck) } : Game) + {c} := by
          rw [show gameCards ({ g with deck := (⟨rest⟩ : Deck) } : Game) + (playerCards p + {c})
              = gameCards ({ g with deck := (⟨rest⟩ : Deck) } : Game) + {c} + playerCards p
            by abel, add_tsub_cancel_right]
      _ = gameCards g := hglue

/-- Giving a card to seat `i` adds exactly that card to the game's card
multiset. -/
theorem gameCards_setP_give {g : Game} {i : Nat} {p : Player} (c : Card)
    (h : g.players[i]? = some p) :
    gameCards (g.setP i (p.give_card c)) = gameCards g + {c} := by
  have hs := gameCards_setP (p.give_card c) h
  rw [playerCards_give_card] at hs
  have hs' : gameCards (g.setP i (p.give_card c)) + playerCards p
      = (gameCards g + {c}) + playerCards p := by rw [hs]; abel
  exact add_right_cancel hs'

/-- `Game::play_guard` preserves the card multiset and the deck. -/
theorem play_guard_preserves {g g' : Game} {t : Nat} {guess : Card} {evs : List Event}
    (h : g.play_guard t guess = some (g', evs)) :
    gameCards g' = gameCards g ∧ g'.deck = g.deck := by
  unfold Game.play_guard at h
  revert h
  cases hp : g.players[t]? with
  | none => intro h; exact absurd h (by simp)
  | some p =>
    intro h
    simp only [] at h
    by_cases hold : p.is_holding_card guess
    · rw [if_pos hold] at h
      cases h1 : g.eliminate_player t with
      | none => rw [h1] at h; exact absurd h (by simp)
      | some r1 =>
        obtain ⟨g1, ev1⟩ := r1
        rw [h1] at h
        simp only [] at h
        cases h2 : g1.reveal_eliminated_player_card t with
        | none => rw [h2] at h; exact absurd h (by simp)
        | some r2 =>
          obtain ⟨g2, ev2⟩ := r2
          rw [h2] at h
          simp only [Option.some.injEq, Prod.mk.injEq] at h
          obtain ⟨rfl, -⟩ := h
          obtain ⟨he1, hd1⟩ := eliminate_player_spec h1
          obtain ⟨he2, hd2⟩ := reveal_spec h2
          exact ⟨he2.trans he1, hd2.trans hd1⟩
    · rw [if_neg hold] at h
      simp only [Option.some.injEq, Prod.mk.injEq] at h
      obtain ⟨rfl, -⟩ := h
      exact ⟨rfl, rfl⟩

/-- `Game::play_priest` mutates nothing. -/
theorem play_priest_preserves {g g' : Game} {i t : Nat} {evs : List Event}
    (h : g.play_priest i t = some (g', evs)) : g' = g := by
  unfold Game.play_priest at h
  revert h
  cases hp : g.players[t]? with
  | none => intro h; exact absurd h (by simp)
  | some p =>
    intro h
    simp only [] at h
    cases hc : p.card with
    | none => rw [hc] at h; exact absurd h (by simp)
    | some c =>
      rw [hc] at h
      simp only [Option.some.injEq, Prod.mk.injEq] at h
      exact h.1.symm

/-- `Game::play_baron` preserves the card multiset and the deck. -/
theorem play_baron_preserves {g g' : Game} {i t : Nat} {evs : List Event}
    (h : g.play_baron i t = some (g', evs)) :
    gameCards g' = gameCards g ∧ g'.deck = g.deck := by
  unfold Game.play_baron at h
  revert h
  cases hpi : g.players[i]? with
  | none => intro h; exact absurd h (by simp)
  | some pi =>
    intro h
    simp only [] at h
    cases hci : pi.card with
    | none => rw [hci] at h; exact absurd h (by simp)
    | some ci =>
      rw [hci] at h
      simp only [] at h
      cases hpt : g.players[t]? with
      | none => rw [hpt] at h; exact absurd h (by simp)
      | some pt =>
        rw [hpt] at h
        simp only [] at h
        cases hct : pt.card with
        | none => rw [hct] at h; exact absurd h (by simp)
        | some ct =>
          rw [hct] at h
          simp only [] at h
          by_cases hlt : ci.value < ct.value
          · rw [if_pos hlt] at h
            simp only [] at h
            cases h1 : g.eliminate_player i with
            | none => rw [h1] at h; exact absurd h (by simp)
            | some r1 =>
              obtain ⟨g1, ev1⟩ := r1
              rw [h1] at h
              simp only [] at h
              cases h2 : g1.reveal_eliminated_player_card i with
              | none => rw [h2] at h; exact absurd h (by simp)
              | some r2 =>
                obtain ⟨g2, ev2⟩ := r2
                rw [h2] at h
                simp only [Option.some.injEq, Prod.mk.injEq] at h
                obtain ⟨rfl, -⟩ := h
                obtain ⟨he1, hd1⟩ := eliminate_player_spec h1
                obtain ⟨he2, hd2⟩ := reveal_spec h2
                exact ⟨he2.trans he1, hd2.trans hd1⟩
          · rw [if_neg hlt] at h
            by_cases hgt : ct.value < ci.value
            · rw [if_pos hgt] at h
              simp only [] at h
              cases h1 : g.eliminate_player t with
              | none => rw [h1] at h; exact absurd h (by simp)
              | some r1 =>
                obtain ⟨g1, ev1⟩ := r1
                rw [h1] at h
                simp only [] at h
                cases h2 : g1.reveal_eliminated_player_card t with
                | none => rw [h2] at h; exact absurd h (by simp)
                | some r2 =>
                  obtain ⟨g2, ev2⟩ := r2
                  rw [h2] at h
                  simp only [Option.some.injEq, Prod.mk.injEq] at h
                  obtain ⟨rfl, -⟩ := h
                  obtain ⟨he1, hd1⟩ := eliminate_player_spec h1
                  obtain ⟨he2, hd2⟩ := reveal_spec h2
                  exact ⟨he2.trans he1, hd2.trans hd1⟩
            · rw [if_neg hgt] at h
              simp only [Option.some.injEq, Prod.mk.injEq] at h
              obtain ⟨rfl, -⟩ := h
              exact ⟨rfl, rfl⟩

/-- `Game::play_handmaid` preserves the card multiset and the deck. -/
theorem play_handmaid_preserves {g g' : Game} {i : Nat} {evs : List Event}
    (h : g.play_handmaid i = some (g', evs)) :
    gameCards g' = gameCards g ∧ g'.deck = g.deck := by
  unfold Game.play_handmaid at h
  revert h
  cases hp : g.players[i]? with
  | none => intro h; exact absurd h (by simp)
  | some p =>
    intro h
    simp only [Option.some.injEq, Prod.mk.injEq] at h
    obtain ⟨rfl, -⟩ := h
    exact ⟨gameCards_setP_eq p.make_protected hp rfl, rfl⟩

/-- `Game::play_prince` preserves the card multiset when the deck is
non-empty on entry (otherwise the redeal falls back to the burned card,
which the `.take()` slip leaves in place, duplicating it). -/
theorem play_prince_preserves {g g' : Game} {t : Nat} {evs : List Event}
    (hd : g.deck.cards ≠ [])
    (h : g.play_prince t = some (g', evs)) :
    gameCards g' = gameCards g := by
  unfold Game.play_prince at h
  revert h
  cases hp : g.players[t]? with
  | none => intro h; exact absurd h (by simp)
  | some p =>
    intro h
    simp only [] at h
    cases hc : p.card with
    | none => rw [hc] at h; exact absurd h (by simp)
    | some card =>
      rw [hc] at h
      simp only [] at h
      cases h1 : g.discard_hand t with
      | none => rw [h1] at h; exact absurd h (by simp)
      | some r1 =>
        obtain ⟨g1, ev1⟩ := r1
        rw [h1] at h
        simp only [] at h
        obtain ⟨he1, hd1⟩ := discard_hand_spec h1
        by_cases hpr : card = Card.Princess
        · rw [if_pos hpr] at h
          cases h2 : g1.eliminate_player t with
          | none => rw [h2] at h; exact absurd h (by simp)
          | some r2 =>
            obtain ⟨g2, ev2⟩ := r2
            rw [h2] at h
            simp only [Option.some.injEq, Prod.mk.injEq] at h
            obtain ⟨rfl, -⟩ := h
            exact (eliminate_player_spec h2).1.trans he1
        · rw [if_neg hpr] at h
          cases h2 : g1.draw_and_give_card_to_player t with
          | none => rw [h2] at h; exact absurd h (by simp)
          | some r2 =>
            obtain ⟨g2, ev2⟩ := r2
            rw [h2] at h
            simp only [Option.some.injEq, Prod.mk.injEq] at h
            obtain ⟨rfl, -⟩ := h
            have hd1' : g1.deck.cards ≠ [] := by rw [hd1]; exact hd
            exact (draw_nonempty_spec hd1' h2).1.trans he1

/-- `Game::play_princess` preserves the card multiset and the deck. -/
theorem play_princess_preserves {g g' : Game} {i : Nat} {evs : List Event}
    (h : g.play_princess i = some (g', evs)) :
    gameCards g' = gameCards g ∧ g'.deck = g.deck := by
  unfold Game.play_princess at h
  revert h
  cases h1 : g.eliminate_player i with
  | none => intro h; exact absurd h (by simp)
  | some r1 =>
    obtain ⟨g1, ev1⟩ := r1
    intro h
    simp only [Option.some.injEq, Prod.mk.injEq] at h
    obtain ⟨rfl, -⟩ := h
    exact eliminate_player_spec h1

/-- `Game::play_king` adds one extra copy of each swapped card to the
game's card multiset: `take_card` pushes the taken card onto its owner's
discards, and the same card is then handed to the other player. -/
theorem play_king_delta {g g' : Game} {i t : Nat} {evs : List Event}
    (h : g.play_king i t = some (g', evs)) :
    ∃ c1 c2, evs = [Event.SwapHands i c1 t c2] ∧
      gameCards g' = gameCards g + {c1} + {c2} := by
  unfold Game.play_king at h
  revert h
  cases hp : g.players[i]? with
  | none => intro h; exact absurd h (by simp)
  | some pl =>
    intro h
    simp only [] at h
    cases htc : pl.take_card with
    | mk c1Opt pl' =>
      rw [htc] at h
      cases c1Opt with
      | none => exact absurd h (by simp)
      | some c1 =>
        simp only [] at h
        cases hpt : (g.setP i pl').players[t]? with
        | none => rw [hpt] at h; exact absurd h (by simp)
        | some tg =>
          rw [hpt] at h
          simp only [] at h
          cases htc2 : tg.take_card with
          | mk c2Opt tg' =>
            rw [htc2] at h
            cases c2Opt with
            | none => exact absurd h (by simp)
            | some c2 =>
              simp only [] at h
              cases hp1 : ((g.setP i pl').setP t tg').players[i]? with
              | none => rw [hp1] at h; exact absurd h (by simp)
              | some p1 =>
                rw [hp1] at h
                simp only [] at h
                cases hp2 : (((g.setP i pl').setP t tg').setP i
                    (p1.give_card c2)).players[t]? with
                | none => rw [hp2] at h; exact absurd h (by simp)
                | some p2 =>
                  rw [hp2] at h
                  simp only [Option.some.injEq, Prod.mk.injEq] at h
                  obtain ⟨rfl, rfl⟩ := h
                  refine ⟨c1, c2, rfl, ?_⟩
                  have e1 : gameCards (g.setP i pl') = gameCards g :=
                    gameCards_setP_eq pl' hp (playerCards_take_card htc)
                  have e2 : gameCards ((g.setP i pl').setP t tg')
                      = gameCards (g.setP i pl') :=
                    gameCards_setP_eq tg' hpt (playerCards_take_card htc2)
                  have e3 : gameCards (((g.setP i pl').setP t tg').setP i
                        (p1.give_card c2))
                      = gameCards ((g.setP i pl').setP t tg') + {c2} :=
                    gameCards_setP_give c2 hp1
                  have e4 : gameCards ((((g.setP i pl').setP t tg').setP i
                        (p1.give_card c2)).setP t (p2.give_card c1))
                      = gameCards (((g.setP i pl').setP t tg').setP i
                        (p1.give_card c2)) + {c1} :=
                    gameCards_setP_give c1 hp2
                  rw [e4, e3, e2, e1]
                  abel

/-- `Game::play_countess` mutates nothing. -/
theorem play_countess_preserves {g g' : Game} {evs : List Event}
    (h : g.play_countess = some (g', evs)) : g' = g := by
  unfold Game.play_countess at h
  simp only [Option.some.injEq, Prod.mk.injEq] at h
  exact h.1.symm

/-- The per-card dispatch of `Game::play_card` preserves the card
multiset for every card except the King, given a non-empty deck (needed
only for the Prince redeal). -/
theorem card_effect_preserves {g g' : Game} {i : Nat} {details : PlayCardDetails}
    {evs : List Event}
    (hnk : details.card ≠ Card.King) (hd : g.deck.cards ≠ [])
    (h : g.card_effect i details = some (g', evs)) :
    gameCards g' = gameCards g := by
  unfold Game.card_effect at h
  cases details with
  | PlayGuard target_idx guess =>
    cases target_idx with
    | none => simp only [Option.some.injEq, Prod.mk.injEq] at h; rw [← h.1]
    | some t => exact (play_guard_preserves h).1
  | PlayPriest target_idx =>
    cases target_idx with
    | none => simp only [Option.some.injEq, Prod.mk.injEq] at h; rw [← h.1]
    | some t => rw [play_priest_preserves h]
  | PlayBaron target_idx =>
    cases target_idx with
    | none => simp only [Option.some.injEq, Prod.mk.injEq] at h; rw [← h.1]
    | some t => exact (play_baron_preserves h).1
  | PlayHandmaid => exact (play_handmaid_preserves h).1
  | PlayPrince target_idx => exact play_prince_preserves hd h
  | PlayKing target_idx =>
    cases target_idx with
    | none => simp only [Option.some.injEq, Prod.mk.injEq] at h; rw [← h.1]
    | some t => exact absurd rfl hnk
  | PlayCountess => rw [play_countess_preserves h]
  | PlayPrincess => exact (play_princess_preserves h).1

/-- The post-effect progression of `Game::play_card` preserves the card
multiset: ending the game only flips the phase, and the turn-advance
deal only fires when the deck is non-empty. -/
theorem play_card_rest_progression {g g' g2 : Game} {i : Nat}
    {details : PlayCardDetails} {ev1 : Event} {evs evs2 : List Event}
    (hce : g.card_effect i details = some (g2, evs2))
    (h : g.play_card_rest i details ev1 = some (g', evs)) :
    gameCards g' = gameCards g2 := by
  unfold Game.play_card_rest at h
  rw [hce] at h
  simp only [] at h
  by_cases h1 : (g2.active_players).length = 1
  · rw [if_pos h1] at h
    simp only [Option.some.injEq, Prod.mk.injEq] at h
    obtain ⟨rfl, -⟩ := h
    rfl
  · rw [if_neg h1] at h
    by_cases h2 : g2.deck.is_empty
    · rw [if_pos h2] at h
      cases hw : g2.calculate_winners with
      | none => rw [hw] at h; exact absurd h (by simp)
      | some winners =>
        rw [hw] at h
        simp only [Option.some.injEq, Prod.mk.injEq] at h
        obtain ⟨rfl, -⟩ := h
        rfl
    · rw [if_neg h2] at h
      cases hnp : g2.next_player with
      | none => rw [hnp] at h; exact absurd h (by simp)
      | some np =>
        rw [hnp] at h
        simp only [] at h
        cases hdr : g2.draw_and_give_card_to_player np with
        | none => rw [hdr] at h; exact absurd h (by simp)
        | some r3 =>
          obtain ⟨g3, ev3⟩ := r3
          rw [hdr] at h
          simp only [] at h
          cases hst : g3.start_player_turn np with
          | none => rw [hst] at h; exact absurd h (by simp)
          | some r4 =>
            obtain ⟨g4, ev4⟩ := r4
            rw [hst] at h
            simp only [Option.some.injEq, Prod.mk.injEq] at h
            obtain ⟨rfl, -⟩ := h
            have hd2 : g2.deck.cards ≠ [] := by
              intro hc
              apply h2
              unfold Deck.is_empty
              rw [hc]
              rfl
            exact (start_player_turn_spec hst).1.trans (draw_nonempty_spec hd2 hdr).1

/-- The validation prefix of `Game::play_card`: a successful (`Ok`) run
factors through the hand-removal step and the rest of the resolution. -/
theorem play_card_ok_factors {g g' : Game} {i : Nat} {details : PlayCardDetails}
    {evs : List Event}
    (h : g.play_card i details = some (g', Except.ok evs)) :
    ∃ g1 ev1, g.play_card_from_player_hand i details.card = some (Except.ok (g1, ev1)) ∧
      g1.play_card_rest i details ev1 = some (g', evs) := by
  unfold Game.play_card at h
  revert h
  cases hig : g.is_game_in_progress with
  | error e => intro h; simp at h
  | ok u =>
    cases u
    cases hex : g.does_player_exist i with
    | error e => intro h; simp at h
    | ok u =>
      cases u
      cases htn : g.is_it_players_turn i with
      | error e => intro h; simp at h
      | ok u =>
        cases u
        cases htv : g.is_target_valid i details.target details.card with
        | error e => intro h; simp at h
        | ok u =>
          cases u
          cases hal : g.is_player_allowed_to_play_card i details.card with
          | none => intro h; simp at h
          | some r =>
            cases r with
            | error e => intro h; simp at h
            | ok u =>
              cases u
              cases hfr : g.play_card_from_player_hand i details.card with
              | none => intro h; simp at h
              | some r =>
                cases r with
                | error e => intro h; simp at h
                | ok r1 =>
                  obtain ⟨g1, ev1⟩ := r1
                  intro h
                  simp only [] at h
                  cases hrest : g1.play_card_rest i details ev1 with
                  | none => rw [hrest] at h; simp at h
                  | some r2 =>
                    obtain ⟨gr, evsr⟩ := r2
                    rw [hrest] at h
                    simp only [Option.some.injEq, Prod.mk.injEq,
                      Except.ok.injEq] at h
                    obtain ⟨rfl, rfl⟩ := h
                    exact ⟨g1, ev1, rfl, hrest⟩

/-- A successful non-King play with a non-empty deck preserves the card
multiset. -/
theorem play_card_preserves_nonking {g g' : Game} {i : Nat}
    {details : PlayCardDetails} {evs : List Event}
    (hnk : details.card ≠ Card.King) (hd : g.deck.cards ≠ [])
    (h : g.play_card i details = some (g', Except.ok evs)) :
    gameCards g' = gameCards g := by
  obtain ⟨g1, ev1, hfr, hrest⟩ := play_card_ok_factors h
  obtain ⟨hc1, hdeck1, -⟩ := play_card_from_player_hand_spec hfr
  revert hrest
  unfold Game.play_card_rest
  cases hce : g1.card_effect i details with
  | none => intro hrest; exact absurd hrest (by simp)
  | some r2 =>
    obtain ⟨g2, evs2⟩ := r2
    intro hrest
    have hdeck : g1.deck.cards ≠ [] := by rw [hdeck1]; exact hd
    have he : gameCards g2 = gameCards g1 := card_effect_preserves hnk hdeck hce
    have hp : gameCards g' = gameCards g2 :=
      play_card_rest_progression hce (by unfold Game.play_card_rest; rw [hce]; exact hrest)
    rw [hp, he, hc1]

/-- A successful King play with a named target adds one extra copy of
each swapped card to the card multiset. -/
theorem play_card_king_adds {g g' : Game} {i t : Nat} {evs : List Event}
    (h : g.play_card i (PlayCardDetails.PlayKing (some t)) = some (g', Except.ok evs)) :
    ∃ c1 c2, gameCards g' = gameCards g + {c1} + {c2} := by
  obtain ⟨g1, ev1, hfr, hrest⟩ := play_card_ok_factors h
  obtain ⟨hc1, hdeck1, -⟩ := play_card_from_player_hand_spec hfr
  revert hrest
  unfold Game.play_card_rest
  cases hce : g1.card_effect i (PlayCardDetails.PlayKing (some t)) with
  | none => intro hrest; exact absurd hrest (by simp)
  | some r2 =>
    obtain ⟨g2, evs2⟩ := r2
    intro hrest
    have hking : g1.play_king i t = some (g2, evs2) := hce
    obtain ⟨c1, c2, -, hdelta⟩ := play_king_delta hking
    have hp : gameCards g' = gameCards g2 :=
      play_card_rest_progression hce (by unfold Game.play_card_rest; rw [hce]; exact hrest)
    exact ⟨c1, c2, by rw [hp, hdelta, hc1]⟩

theorem removedCards_append (l1 l2 : List Event) :
    removedCards (l1 ++ l2) = removedCards l1 + removedCards l2 := by
  unfold removedCards
  rw [List.filterMap_append, ← Multiset.coe_add]

theorem removedCards_registers (l : List Nat) :
    removedCards (l.map Event.RegisterPlayer) = 0 := by
  induction l with
  | nil => rfl
  | cons a t ih =>
    unfold removedCards at ih ⊢
    rw [List.map_cons, List.filterMap_cons]
    exact ih

/-- `draw_and_give_card_to_player` only ever reports a `DealCard` event. -/
theorem draw_event_shape {g g' : Game} {i : Nat} {ev : Event}
    (h : g.draw_and_give_card_to_player i = some (g', ev)) :
    ∃ c, ev = Event.DealCard i c := by
  unfold Game.draw_and_give_card_to_player at h
  revert h
  cases hpop : g.deck.pop with
  | none =>
    cases hb : g.burned_card with
    | none => intro h; exact absurd h (by simp)
    | some c =>
      simp only []
      cases hp : g.players[i]? with
      | none => intro h; exact absurd h (by simp)
      | some p =>
        intro h
        simp only [Option.some.injEq, Prod.mk.injEq] at h
        exact ⟨c, h.2.symm⟩
  | some pr =>
    obtain ⟨c, d'⟩ := pr
    simp only []
    cases hp : ({ g with deck := d' } : Game).players[i]? with
    | none => intro h; exact absurd h (by simp)
    | some p =>
      intro h
      simp only [Option.some.injEq, Prod.mk.injEq] at h
      exact ⟨c, h.2.symm⟩

/-- The deal loop preserves the card multiset while the deck holds
enough cards, shrinks the deck by one card per deal, keeps the burned
card, and only appends `DealCard` events. -/
theorem deal_loop_spec (idxs : List Nat) :
    ∀ (g g' : Game) (evs evs' : List Event),
      idxs.length ≤ g.deck.cards.length →
      Game.deal_loop g evs idxs = some (g', evs') →
      gameCards g' = gameCards g ∧
      g'.deck.cards.length + idxs.length = g.deck.cards.length ∧
      removedCards evs' = removedCards evs ∧
      g'.burned_card = g.burned_card := by
  induction idxs with
  | nil =>
    intro g g' evs evs' hlen h
    unfold Game.deal_loop at h
    simp only [Option.some.injEq, Prod.mk.injEq] at h
    obtain ⟨rfl, rfl⟩ := h
    exact ⟨rfl, rfl, rfl, rfl⟩
  | cons idx rest ih =>
    intro g g' evs evs' hlen h
    unfold Game.deal_loop at h
    revert h
    have hd : g.deck.cards ≠ [] := by
      intro hc
      rw [hc] at hlen
      simp at hlen
    cases hdr : g.draw_and_give_card_to_player idx with
    | none => intro h; exact absurd h (by simp)
    | some r =>
      obtain ⟨g1, ev⟩ := r
      intro h
      simp only [] at h
      obtain ⟨hgc, hlen1, hburn⟩ := draw_nonempty_spec hd hdr
      have hlen' : rest.length ≤ g1.deck.cards.length := by
        simp only [List.length_cons] at hlen
        omega
      obtain ⟨ih1, ih2, ih3, ih4⟩ := ih g1 g' (evs ++ [ev]) evs' hlen' h
      obtain ⟨c, rfl⟩ := draw_event_shape hdr
      refine ⟨ih1.trans hgc, by simp only [List.length_cons]; omega,
        ?_, ih4.trans hburn⟩
      rw [ih3, removedCards_append]
      have : removedCards [Event.DealCard idx c] = 0 := rfl
      rw [this, add_zero]

/-- Fresh players carry no cards. -/
theorem sum_playerCards_replicate_new (n : Nat) :
    ((List.replicate n Player.new).map playerCards).sum = 0 := by
  induction n with
  | zero => rfl
  | succ m ih =>
    rw [List.replicate_succ]
    simp only [List.map, List.sum_cons, ih]
    rfl

/-- `start_player_turn` only ever reports a `ReadyToPlay` event. -/
theorem start_turn_event_shape {g g' : Game} {i : Nat} {ev : Event}
    (h : g.start_player_turn i = some (g', ev)) : ev = Event.ReadyToPlay i := by
  unfold Game.start_player_turn at h
  simp only [] at h
  revert h
  cases hp : g.players[i]? with
  | none => intro h; exact absurd h (by simp)
  | some p =>
    intro h
    simp only [Option.some.injEq, Prod.mk.injEq] at h
    exact h.2.symm

/-- The tail of `start_game` preserves the card multiset, adds no
`RemoveCardFromGame` event, and sets the phase to `InProgress`, as long
as the deck holds enough cards for every deal. -/
theorem start_tail_spec {g3 gb : Game} {events2 evsb : List Event} {n : Nat}
    (hlen : n + 1 ≤ g3.deck.cards.length)
    (h : Game.start_tail g3 events2 n = some (gb, evsb)) :
    gameCards gb = gameCards g3 ∧ removedCards evsb = removedCards events2 ∧
      gb.state = GameState.InProgress := by
  unfold Game.start_tail at h
  revert h
  cases hdl : Game.deal_loop g3 events2 (List.range n) with
  | none => intro h; exact absurd h (by simp)
  | some r =>
    obtain ⟨g4, events3⟩ := r
    intro h
    simp only [] at h
    have hrange : (List.range n).length ≤ g3.deck.cards.length := by
      rw [List.length_range]
      omega
    obtain ⟨hdl1, hdl2, hdl3, -⟩ := deal_loop_spec (List.range n) g3 g4 events2 events3
      hrange hdl
    rw [List.length_range] at hdl2
    have hd4 : g4.deck.cards ≠ [] := by
      intro hc
      rw [hc] at hdl2
      simp at hdl2
      omega
    revert h
    cases hdr : g4.draw_and_give_card_to_player 0 with
    | none => intro h; exact absurd h (by simp)
    | some r =>
      obtain ⟨g5, dealEv⟩ := r
      intro h
      simp only [] at h
      obtain ⟨hdr1, -, -⟩ := draw_nonempty_spec hd4 hdr
      revert h
      cases hst : g5.start_player_turn 0 with
      | none => intro h; exact absurd h (by simp)
      | some r =>
        obtain ⟨g6, readyEv⟩ := r
        intro h
        simp only [Option.some.injEq, Prod.mk.injEq] at h
        obtain ⟨rfl, rfl⟩ := h
        obtain ⟨hst1, -⟩ := start_player_turn_spec hst
        refine ⟨?_, ?_, rfl⟩
        · have : gameCards ({ g6 with state := GameState.InProgress } : Game)
              = gameCards g6 := rfl
          rw [this, hst1, hdr1, hdl1]
        · obtain ⟨c, rfl⟩ := draw_event_shape hdr
          have hready := start_turn_event_shape hst
          subst hready
          rw [removedCards_append, hdl3]
          have : removedCards [Event.DealCard 0 c, Event.ReadyToPlay 0] = 0 := rfl
          rw [this, add_zero]

/-- Unpacking a successful `Deck::pop`. -/
theorem Deck.pop_some {d : Deck} {c : Card} {d' : Deck} (h : d.pop = some (c, d')) :
    (d.cards : Multiset Card) = ↑d'.cards + {c} ∧ d'.cards.length + 1 = d.cards.length := by
  unfold Deck.pop at h
  revert h
  cases hp : popBack d.cards with
  | none => intro h; exact absurd h (by simp)
  | some pr =>
    obtain ⟨c0, rest⟩ := pr
    intro h
    simp only [Option.map, Option.some.injEq, Prod.mk.injEq] at h
    obtain ⟨rfl, rfl⟩ := h
    exact popBack_some_spec hp

/-- The burn step drops any previously burned card, moves the top of the
deck into the burned slot and keeps the players. -/
theorem burn_step_spec (g : Game) (hne : g.deck.cards ≠ []) :
    gameCards (Game.burn_step g) =
      (g.deck.cards : Multiset Card) + (g.players.map playerCards).sum ∧
    (Game.burn_step g).deck.cards.length + 1 = g.deck.cards.length ∧
    (Game.burn_step g).players = g.players := by
  obtain ⟨c, rest, hpop⟩ := popBack_of_length_pos g.deck.cards
    (by cases hc : g.deck.cards with
        | nil => exact absurd hc hne
        | cons a t => simp)
  obtain ⟨hm, hl⟩ := popBack_some_spec hpop
  have hb : Game.burn_step g = { g with deck := ⟨rest⟩, burned_card := some c } := by
    unfold Game.burn_step Deck.pop
    rw [hpop]
    rfl
  rw [hb]
  refine ⟨?_, by simpa using hl, rfl⟩
  unfold gameCards
  simp only [Option.elim]
  rw [hm]

/-- The three-card removal of a two-player start takes exactly three
cards out of the deck and records them. -/
theorem remove_three_step_spec {g g' : Game} {events events' : List Event}
    (h : g.remove_three_step events = some (g', events')) :
    ∃ a b c,
      events' = events ++ [Event.RemoveCardFromGame a, Event.RemoveCardFromGame b,
                           Event.RemoveCardFromGame c] ∧
      gameCards g' + ({a} + {b} + {c}) = gameCards g ∧
      g'.deck.cards.length + 3 = g.deck.cards.length ∧
      g'.players = g.players := by
  unfold Game.remove_three_step at h
  revert h
  cases hp1 : g.deck.pop with
  | none => intro h; exact absurd h (by simp)
  | some r1 =>
    obtain ⟨a, d1⟩ := r1
    intro h
    simp only [] at h
    obtain ⟨hm1, hl1⟩ := Deck.pop_some hp1
    revert h
    cases hp2 : d1.pop with
    | none => intro h; exact absurd h (by simp)
    | some r2 =>
      obtain ⟨b, d2⟩ := r2
      intro h
      simp only [] at h
      obtain ⟨hm2, hl2⟩ := Deck.pop_some hp2
      revert h
      cases hp3 : d2.pop with
      | none => intro h; exact absurd h (by simp)
      | some r3 =>
        obtain ⟨c, d3⟩ := r3
        intro h
        simp only [Option.some.injEq, Prod.mk.injEq] at h
        obtain ⟨rfl, rfl⟩ := h
        obtain ⟨hm3, hl3⟩ := Deck.pop_some hp3
        refine ⟨a, b, c, rfl, ?_, by simp only []; omega, rfl⟩
        unfold gameCards
        simp only []
        rw [hm1, hm2, hm3]
        abel

/-- The fixed start-of-game events carry no removals. -/
theorem removedCards_start_events (n : Nat) :
    removedCards ([Event.NewGame n] ++ (List.range n).map Event.RegisterPlayer
      ++ [Event.BurnCard]) = 0 := by
  rw [removedCards_append, removedCards_append, removedCards_registers]
  rfl

/-- A successful `start_game` leaves a state whose card multiset,
together with the publicly removed cards, is exactly the shuffled
16-card deck; games of three or four players remove nothing. -/
theorem start_game_establishes {g gb : Game} {sh : List Card} {n : Nat}
    {evsb : List Event}
    (hperm : sh.Perm Deck.new.cards)
    (h : g.start_game sh n = some (gb, Except.ok evsb)) :
    gameCards gb + removedCards evsb = fullComposition ∧
      (n ≠ 2 → removedCards evsb = 0) := by
  have hlen : sh.length = 16 := by
    rw [hperm.length_eq]
    rfl
  have hsh : (sh : Multiset Card) = fullComposition := Multiset.coe_eq_coe.mpr hperm
  unfold Game.start_game at h
  by_cases hn : n < 2 ∨ n > 4
  · rw [if_pos hn] at h
    simp at h
  · rw [if_neg hn] at h
    push_neg at hn
    revert h
    cases hb : g.start_game_body sh n with
    | none => intro h; exact absurd h (by simp)
    | some r =>
      obtain ⟨gb', evsb'⟩ := r
      intro h
      simp only [Option.some.injEq, Prod.mk.injEq, Except.ok.injEq] at h
      obtain ⟨rfl, rfl⟩ := h
      unfold Game.start_game_body at hb
      simp only [] at hb
      have hG1cards : (g.reset_step sh n).deck.cards = sh := rfl
      have hG1ne : (g.reset_step sh n).deck.cards ≠ [] := by
        rw [hG1cards]
        intro hc
        rw [hc] at hlen
        simp at hlen
      obtain ⟨hbs1, hbs2, hbs3⟩ := burn_step_spec _ hG1ne
      rw [hG1cards] at hbs1 hbs2
      have hbsum : ((List.replicate n Player.new).map playerCards).sum = 0 :=
        sum_playerCards_replicate_new n
      have hG2cards : gameCards (Game.burn_step (g.reset_step sh n))
          = (sh : Multiset Card) := by
        rw [hbs1]
        have hps : (g.reset_step sh n).players = List.replicate n Player.new := rfl
        rw [hps, hbsum, add_zero]
      by_cases hn2 : n = 2
      · subst hn2
        rw [if_pos rfl] at hb
        revert hb
        cases hrem : (Game.burn_step (g.reset_step sh 2)).remove_three_step
            ([Event.NewGame 2] ++ (List.range 2).map Event.RegisterPlayer
              ++ [Event.BurnCard]) with
        | none => intro hb; exact absurd hb (by simp)
        | some r3 =>
          obtain ⟨g3, events2⟩ := r3
          intro hb
          obtain ⟨a, b, c, hev2, hg3cards, hg3len, -⟩ := remove_three_step_spec hrem
          have hg3deck : 3 + 1 ≤ g3.deck.cards.length := by omega
          obtain ⟨ht1, ht2, -⟩ := start_tail_spec (by omega : 2 + 1 ≤ g3.deck.cards.length) hb
          have hrc2 : removedCards events2 = {a} + {b} + {c} := by
            rw [hev2, removedCards_append, removedCards_start_events, zero_add]
            have : removedCards [Event.RemoveCardFromGame a, Event.RemoveCardFromGame b,
                Event.RemoveCardFromGame c] = ((([a, b, c] : List Card)) : Multiset Card) := rfl
            rw [this, coe_cons, coe_cons, coe_cons]
            have h0 : (([] : List Card) : Multiset Card) = 0 := rfl
            rw [h0]
            abel
          constructor
          · rw [ht1, ht2, hrc2, hg3cards, hG2cards]
            exact hsh
          · intro hcon
            exact absurd rfl hcon
      · rw [if_neg hn2] at hb
        obtain ⟨ht1, ht2, -⟩ := start_tail_spec (by omega : n + 1 ≤ (Game.burn_step
            (g.reset_step sh n)).deck.cards.length) hb
        have hrc : removedCards ([Event.NewGame n] ++ (List.range n).map Event.RegisterPlayer
            ++ [Event.BurnCard]) = 0 := removedCards_start_events n
        rw [ht2, hrc]
        exact ⟨by rw [add_zero, ht1, hG2cards, hsh], fun _ => rfl⟩

/-- The summary `Game.next_player` agrees with the literal fuel-bounded
loop: the loop produces an answer (for some fuel bound) exactly when the
summary does, and then the answers coincide. -/
theorem next_player_eq_fuel (g : Game) (i : Nat) :
    g.next_player = some i ↔ ∃ fuel, g.next_player_fuel fuel = some i := by
  constructor
  · intro h
    refine ⟨1, ?_⟩
    unfold Game.next_player at h
    unfold Game.next_player_fuel nextPlayerLoop
    revert h
    cases hp : g.players[(g.turn_counter + 1) % g.players.length]? with
    | none => simp [hp]
    | some p =>
      by_cases hact : p.active <;> simp [hp, hact, nextPlayerLoop]
  · rintro ⟨fuel, h⟩
    unfold Game.next_player_fuel at h
    unfold Game.next_player
    induction fuel with
    | zero => simp [nextPlayerLoop] at h
    | succ n ih =>
      rw [nextPlayerLoop] at h
      revert h
      cases hp : g.players[(g.turn_counter + 1) % g.players.length]? with
      | none => simp [hp]
      | some p =>
        by_cases hact : p.active
        · simp [hp, hact]
        · simp only [hact, if_false]
          exact ih


/-! ## Definitions used to state individual claims -/

/-- The turn-advancement behaviour the specification describes, for
comparison with `Game.next_player`: the first active seat strictly after
`turn_counter` in ascending wrap-around order, searched for one full
cycle. -/
def claimNextActivePlayer (g : Game) : Option Nat :=
  ((List.range g.players.length).filterMap (fun k =>
    let idx := (g.turn_counter + 1 + k) % g.players.length
    match g.players[idx]? with
    | some p => if p.active then some idx else none
    | none => none)).head?

/-- `true` iff a `perform_action`/`play_card` outcome is a
`MustProvideTarget` rejection. -/
def isMustProvideTargetResult : Option (Game × Except GameError (List Event)) → Bool
  | some (_, Except.error (GameError.MustProvideTarget _)) => true
  | _ => false

/-! ## Claim theorems -/

/-- **C8.** For every action (`StartGame` or `PlayCard`) and every game
state, if `perform_action` returns a `GameError` then the game state
after the call is identical to the state before the call: all
validation occurs before any mutation. -/
theorem error_leaves_state_unchanged (sh : List Card) (g g' : Game) (a : Action)
    (e : GameError) (h : g.perform_action sh a = some (g', Except.error e)) :
    g' = g := by
  cases a with
  | StartGame n =>
    unfold Game.perform_action Game.start_game at h
    simp only [] at h
    by_cases hn : n < 2 ∨ n > 4
    · rw [if_pos hn] at h
      simp only [Option.some.injEq, Prod.mk.injEq] at h
      exact h.1.symm
    · rw [if_neg hn] at h
      revert h
      cases hb : g.start_game_body sh n with
      | none => intro h; exact absurd h (by simp)
      | some r => intro h; simp at h
  | PlayCard i details =>
    unfold Game.perform_action Game.play_card at h
    simp only [] at h
    revert h
    cases hig : g.is_game_in_progress with
    | error e0 =>
      intro h
      simp only [Option.some.injEq, Prod.mk.injEq] at h
      exact h.1.symm
    | ok u =>
      cases u
      cases hex : g.does_player_exist i with
      | error e0 =>
        intro h
        simp only [Option.some.injEq, Prod.mk.injEq] at h
        exact h.1.symm
      | ok u =>
        cases u
        cases htn : g.is_it_players_turn i with
        | error e0 =>
          intro h
          simp only [Option.some.injEq, Prod.mk.injEq] at h
          exact h.1.symm
        | ok u =>
          cases u
          cases htv : g.is_target_valid i details.target details.card with
          | error e0 =>
            intro h
            simp only [Option.some.injEq, Prod.mk.injEq] at h
            exact h.1.symm
          | ok u =>
            cases u
            cases hal : g.is_player_allowed_to_play_card i details.card with
            | none => intro h; exact absurd h (by simp)
            | some r =>
              cases r with
              | error e0 =>
                intro h
                simp only [Option.some.injEq, Prod.mk.injEq] at h
                exact h.1.symm
              | ok u =>
                cases u
                cases hfr : g.play_card_from_player_hand i details.card with
                | none => intro h; exact absurd h (by simp)
                | some r =>
                  cases r with
                  | error e0 =>
                    intro h
                    simp only [Option.some.injEq, Prod.mk.injEq] at h
                    exact h.1.symm
                  | ok r1 =>
                    obtain ⟨g1, ev1⟩ := r1
                    intro h
                    simp only [] at h
                    revert h
                    cases hrest : g1.play_card_rest i details ev1 with
                    | none => intro h; exact absurd h (by simp)
                    | some r2 => intro h; simp at h

/-- **C3.** At the concrete reachable post-effect state `skipGame`
(three seats, seat 1 eliminated, seats 0 and 2 active, non-empty deck,
turn counter 0) the turn-advancement loop of `Game::next_player` never
terminates for any iteration bound, even though at least two active
players remain and the deck is non-empty, and the seat the specification
demands — the first active seat strictly after the turn counter — is
seat 2. -/
theorem next_player_diverges_on_eliminated_neighbour :
    (∀ fuel, skipGame.next_player_fuel fuel = none) ∧
    skipGame.next_player = none ∧
    claimNextActivePlayer skipGame = some 2 ∧
    skipGame.active_players = [0, 2] ∧
    skipGame.deck.is_empty = false ∧
    skipGame.state = GameState.InProgress := by
  refine ⟨?_, by decide, by decide, by decide, by decide, by decide⟩
  intro fuel
  induction fuel with
  | zero => rfl
  | succ m ih => exact ih

/-- **C10.** A targetless Prince play cannot be expressed: the
`PlayPrince` action variant carries a mandatory target index, its
`target` accessor always returns `some`, and `play_card` never rejects
a Prince play with the must-provide-target error. -/
theorem prince_target_always_present (g : Game) (i t : Nat) :
    (PlayCardDetails.PlayPrince t).target = some t ∧
    isMustProvideTargetResult (g.play_card i (PlayCardDetails.PlayPrince t)) = false := by
  refine ⟨rfl, ?_⟩
  unfold Game.play_card
  cases hig : g.is_game_in_progress with
  | error e =>
    unfold Game.is_game_in_progress at hig
    revert hig
    cases hs : g.state with
    | NotStarted =>
      intro hig
      simp only [Except.error.injEq] at hig
      rw [← hig]
      rfl
    | InProgress => intro hig; exact absurd hig (by simp)
    | Complete =>
      intro hig
      simp only [Except.error.injEq] at hig
      rw [← hig]
      rfl
  | ok u =>
    cases u
    cases hex : g.does_player_exist i with
    | error e =>
      unfold Game.does_player_exist at hex
      revert hex
      by_cases hle : g.players.length ≤ i
      · rw [if_pos hle]
        intro hex
        simp only [Except.error.injEq] at hex
        rw [← hex]
        rfl
      · rw [if_neg hle]
        intro hex
        exact absurd hex (by simp)
    | ok u =>
      cases u
      cases htn : g.is_it_players_turn i with
      | error e =>
        unfold Game.is_it_players_turn at htn
        revert htn
        by_cases htc : g.turn_counter = i
        · rw [if_pos htc]
          intro htn
          exact absurd htn (by simp)
        · rw [if_neg htc]
          intro htn
          simp only [Except.error.injEq] at htn
          rw [← htn]
          rfl
      | ok u =>
        cases u
        cases htv : g.is_target_valid i (PlayCardDetails.PlayPrince t).target
            (PlayCardDetails.PlayPrince t).card with
        | error e =>
          unfold Game.is_target_valid at htv
          revert htv
          rw [if_neg (by
            intro hcon
            exact Option.noConfusion hcon.2.2)]
          rw [if_neg (by
            intro hcon
            exact hcon.1 rfl)]
          simp only [PlayCardDetails.target]
          by_cases hlt : t < g.players.length
          · rw [dif_pos hlt]
            by_cases hprot : (g.players.get ⟨t, hlt⟩).protected_flag
            · rw [if_pos hprot]
              intro htv
              simp only [Except.error.injEq] at htv
              rw [← htv]
              rfl
            · rw [if_neg hprot]
              by_cases hact : !(g.players.get ⟨t, hlt⟩).active
              · rw [if_pos hact]
                intro htv
                simp only [Except.error.injEq] at htv
                rw [← htv]
                rfl
              · rw [if_neg hact]
                intro htv
                exact absurd htv (by simp)
          · rw [dif_neg hlt]
            intro htv
            simp only [Except.error.injEq] at htv
            rw [← htv]
            rfl
        | ok u =>
          cases u
          cases hal : g.is_player_allowed_to_play_card i
              (PlayCardDetails.PlayPrince t).card with
          | none => rfl
          | some r =>
            cases r with
            | error e =>
              unfold Game.is_player_allowed_to_play_card at hal
              simp only [PlayCardDetails.card] at hal
              rw [if_pos (Or.inl trivial)] at hal
              revert hal
              cases hp : g.players[i]? with
              | none => intro hal; exact absurd hal (by simp)
              | some p =>
                intro hal
                simp only [] at hal
                by_cases hc : p.is_holding_card Card.Countess
                · rw [if_pos hc] at hal
                  simp only [Option.some.injEq, Except.error.injEq] at hal
                  rw [← hal]
                  rfl
                · rw [if_neg hc] at hal
                  exact absurd hal (by simp)
            | ok u =>
              cases u
              cases hfr : g.play_card_from_player_hand i
                  (PlayCardDetails.PlayPrince t).card with
              | none => rfl
              | some r =>
                cases r with
                | error e =>
                  unfold Game.play_card_from_player_hand at hfr
                  revert hfr
                  cases hp : g.players[i]? with
                  | none => intro hfr; exact absurd hfr (by simp)
                  | some p =>
                    intro hfr
                    simp only [] at hfr
                    revert hfr
                    cases hpc : p.playCard (PlayCardDetails.PlayPrince t).card with
                    | some p' => intro hfr; exact absurd hfr (by simp)
                    | none =>
                      intro hfr
                      simp only [Option.some.injEq, Except.error.injEq] at hfr
                      rw [← hfr]
                      rfl
                | ok r1 =>
                  obtain ⟨g1, ev1⟩ := r1
                  simp only []
                  cases hrest : g1.play_card_rest i (PlayCardDetails.PlayPrince t) ev1 with
                  | none => rfl
                  | some r2 =>
                    obtain ⟨gr, evsr⟩ := r2
                    rfl

/-- The state reached by `tieBreakGame` after seat 0 plays the Guard
with a wrong guess, emptying the turn: the game ends by tie-break. -/
def tieBreakGameAfter : Game :=
  { tieBreakGame with
      players := [
        { hand := [Card.Princess], discards := [Card.Guard], protected_flag := false,
          active := true },
        { hand := [Card.Priest], discards := [], protected_flag := false,
          active := true }],
      state := GameState.Complete }

/-- **C1.** The end-of-deck tie-break returns the players with the
*minimal* (card rank, discard sum) key, not the maximal one: the code
sorts the scores ascending and keeps everything equal to `scores[0]`.
At `tieBreakGame`, seat 0 ends holding the Princess (rank 8, discard
sum 1) and seat 1 the Priest (rank 2, discard sum 0), yet the `GameOver`
event names seat 1 as the sole winner. -/
theorem tie_break_selects_minimal_key :
    tieBreakGame.play_card 0 (PlayCardDetails.PlayGuard (some 1) Card.Baron) =
      some (tieBreakGameAfter,
        Except.ok [Event.PlayCard 0 Card.Guard, Event.Guess 1 Card.Baron,
          Event.GameOver [1]]) ∧
    Card.value Card.Princess > Card.value Card.Priest ∧
    tieBreakGameAfter.players.map Player.hand = [[Card.Princess], [Card.Priest]] := by
  decide

/-- The result of a two-player `start_game` from a fresh game with the
shuffle leaving the deck in canonical order. -/
def startTwoResult : Option (Game × Except GameError (List Event)) :=
  Game.new.start_game canonicalOrder 2

/-- The state after a three-player start (shuffle outcome `kingShuffle`)
followed by seat 0 playing the King on seat 1. -/
def afterKingResult : Option (Game × Except GameError (List Event)) :=
  (Game.new.start_game kingShuffle 3).bind
    (fun r => r.1.play_card 0 (PlayCardDetails.PlayKing (some 1)))

/-- **C2, counterexample.**  Two reachable `InProgress` states whose
card multiset is not the fixed 16-card composition: the state right
after `StartGame{2}` (the three publicly removed cards are gone from the
state — 13 cards remain), and the state after a King swap in a
three-player game (the swap pushes both swapped cards onto discards —
18 cards). -/
theorem conservation_counterexample :
    kingShuffle.Perm canonicalOrder ∧
    (startTwoResult.map (fun r =>
        (r.1.state, (match r.2 with | Except.ok _ => true | Except.error _ => false),
          decide (gameCards r.1 = fullComposition),
          Multiset.card (gameCards r.1))) =
      some (GameState.InProgress, true, false, 13)) ∧
    (afterKingResult.map (fun r =>
        (r.1.state, (match r.2 with | Except.ok _ => true | Except.error _ => false),
          decide (gameCards r.1 = fullComposition),
          Multiset.card (gameCards r.1))) =
      some (GameState.InProgress, true, false, 18)) := by
  decide

/-- **C2, amended.**  Card conservation, as the code actually maintains
it: a successful `start_game` establishes that the game's card multiset
plus the publicly removed cards is exactly the 16-card composition
(nothing is removed except in two-player games); every successful
non-King play with a non-empty deck preserves the game's card multiset
exactly; and every successful King swap adds one extra copy of each of
the two swapped cards (they are pushed onto the participants' discard
piles while also remaining in play). -/
theorem conservation_amended :
    (∀ (g gb : Game) (sh : List Card) (n : Nat) (evs : List Event),
      sh.Perm Deck.new.cards →
      g.start_game sh n = some (gb, Except.ok evs) →
      gameCards gb + removedCards evs = fullComposition ∧
        (n ≠ 2 → removedCards evs = 0)) ∧
    (∀ (g g' : Game) (i : Nat) (details : PlayCardDetails) (evs : List Event),
      details.card ≠ Card.King →
      g.deck.cards ≠ [] →
      g.play_card i details = some (g', Except.ok evs) →
      gameCards g' = gameCards g) ∧
    (∀ (g g' : Game) (i t : Nat) (evs : List Event),
      g.play_card i (PlayCardDetails.PlayKing (some t)) = some (g', Except.ok evs) →
      ∃ c1 c2, gameCards g' = gameCards g + {c1} + {c2}) := by
  refine ⟨?_, ?_, ?_⟩
  · intro g gb sh n evs hperm h
    exact start_game_establishes hperm h
  · intro g g' i details evs hnk hd h
    exact play_card_preserves_nonking hnk hd h
  · intro g g' i t evs h
    exact play_card_king_adds h


/-- The state after `StartGame{3}` from a fresh game with the shuffle
leaving the deck in canonical order. -/
def startThreeState : Game :=
  { deck := ⟨[Card.Guard, Card.Guard, Card.Guard, Card.Guard, Card.Guard,
      Card.Priest, Card.Priest, Card.Baron, Card.Baron, Card.Handmaid,
      Card.Handmaid]⟩,
    burned_card := some Card.Princess,
    players := [
      { hand := [Card.Countess, Card.Prince], discards := [],
        protected_flag := false, active := true },
      { hand := [Card.King], discards := [], protected_flag := false, active := true },
      { hand := [Card.Prince], discards := [], protected_flag := false, active := true }],
    turn_counter := 0, state := GameState.InProgress }

/-- The events of that `StartGame{3}`. -/
def startThreeEvents : List Event :=
  [Event.NewGame 3, Event.RegisterPlayer 0, Event.RegisterPlayer 1,
   Event.RegisterPlayer 2, Event.BurnCard, Event.DealCard 0 Card.Countess,
   Event.DealCard 1 Card.King, Event.DealCard 2 Card.Prince,
   Event.DealCard 0 Card.Prince, Event.ReadyToPlay 0]

/-- A small in-progress game in which seat 0 legally plays a Handmaid. -/
def witnessHandmaidGame : Game :=
  { deck := ⟨[Card.Guard]⟩, burned_card := some Card.Countess,
    players := [
      { hand := [Card.Handmaid, Card.Guard], discards := [],
        protected_flag := false, active := true },
      { hand := [Card.Priest], discards := [], protected_flag := false,
        active := true }],
    turn_counter := 0, state := GameState.InProgress }

/-- The state after that Handmaid play. -/
def witnessHandmaidAfter : Game :=
  { deck := ⟨[]⟩, burned_card := some Card.Countess,
    players := [
      { hand := [Card.Guard], discards := [Card.Handmaid],
        protected_flag := true, active := true },
      { hand := [Card.Priest, Card.Guard], discards := [],
        protected_flag := false, active := true }],
    turn_counter := 1, state := GameState.InProgress }

/-- A small in-progress game in which seat 0 legally plays the King on
seat 1. -/
def witnessKingGame : Game :=
  { deck := ⟨[Card.Guard]⟩, burned_card := some Card.Countess,
    players := [
      { hand := [Card.King, Card.Guard], discards := [],
        protected_flag := false, active := true },
      { hand := [Card.Priest], discards := [], protected_flag := false,
        active := true }],
    turn_counter := 0, state := GameState.InProgress }

/-- The state after that King play. -/
def witnessKingAfter : Game :=
  { deck := ⟨[]⟩, burned_card := some Card.Countess,
    players := [
      { hand := [Card.Priest], discards := [Card.King, Card.Guard],
        protected_flag := false, active := true },
      { hand := [Card.Guard, Card.Guard], discards := [Card.Priest],
        protected_flag := false, active := true }],
    turn_counter := 1, state := GameState.InProgress }

/-- Witness for `conservation_amended`: each conjunct applied at a
concrete successful run, with every hypothesis discharged by `decide`. -/
theorem conservation_amended_witness :
    gameCards startThreeState + removedCards startThreeEvents = fullComposition ∧
    gameCards witnessHandmaidAfter = gameCards witnessHandmaidGame ∧
    Multiset.card (gameCards witnessKingAfter) =
      Multiset.card (gameCards witnessKingGame) + 2 := by
  refine ⟨?_, ?_, ?_⟩
  · exact (conservation_amended.1 Game.new startThreeState canonicalOrder 3
      startThreeEvents (by decide) (by decide)).1
  · exact conservation_amended.2.1 witnessHandmaidGame witnessHandmaidAfter 0
      PlayCardDetails.PlayHandmaid
      [Event.PlayCard 0 Card.Handmaid, Event.DealCard 1 Card.Guard, Event.ReadyToPlay 1]
      (by decide) (by decide) (by decide)
  · obtain ⟨c1, c2, heq⟩ := conservation_amended.2.2 witnessKingGame witnessKingAfter 0 1
      [Event.PlayCard 0 Card.King, Event.SwapHands 0 Card.Guard 1 Card.Priest,
       Event.DealCard 1 Card.Guard, Event.ReadyToPlay 1]
      (by decide)
    rw [heq]
    simp

/-- **C7.** In an in-progress game, on the acting player's turn and with
a valid target choice, playing the Prince or the King while the hand
also contains the Countess is rejected with the
cannot-play-while-holding-Countess error, and the state is returned
unchanged: the check runs before the played card leaves the hand. -/
theorem countess_lock_rejects (g : Game) (i : Nat) (details : PlayCardDetails)
    (p : Player)
    (hprog : g.state = GameState.InProgress)
    (hex : i < g.players.length)
    (hturn : g.turn_counter = i)
    (hcard : details.card = Card.Prince ∨ details.card = Card.King)
    (htv : g.is_target_valid i details.target details.card = Except.ok ())
    (hp : g.players[i]? = some p)
    (hcountess : p.is_holding_card Card.Countess = true) :
    g.play_card i details =
      some (g, Except.error (GameError.CannotPlayWhileHoldingCountess details.card)) := by
  have h1 : g.is_game_in_progress = Except.ok () := by
    unfold Game.is_game_in_progress
    rw [hprog]
  have h2 : g.does_player_exist i = Except.ok () := by
    unfold Game.does_player_exist
    rw [if_neg (by omega)]
  have h3 : g.is_it_players_turn i = Except.ok () := by
    unfold Game.is_it_players_turn
    rw [if_pos hturn]
  have h4 : g.is_player_allowed_to_play_card i details.card =
      some (Except.error (GameError.CannotPlayWhileHoldingCountess details.card)) := by
    unfold Game.is_player_allowed_to_play_card
    rw [if_pos hcard, hp]
    simp only []
    rw [if_pos hcountess]
  unfold Game.play_card
  rw [h1, h2, h3, htv, h4]

/-- A game in which seat 0 holds Countess and King with a legal target
available. -/
def countessGame : Game :=
  { deck := ⟨[Card.Guard]⟩, burned_card := some Card.Priest,
    players := [
      { hand := [Card.Countess, Card.King], discards := [],
        protected_flag := false, active := true },
      { hand := [Card.Guard], discards := [], protected_flag := false,
        active := true }],
    turn_counter := 0, state := GameState.InProgress }

/-- Witness for `countess_lock_rejects` at `countessGame`. -/
theorem countess_lock_rejects_witness :
    countessGame.play_card 0 (PlayCardDetails.PlayKing (some 1)) =
      some (countessGame,
        Except.error (GameError.CannotPlayWhileHoldingCountess Card.King)) :=
  countess_lock_rejects countessGame 0 (PlayCardDetails.PlayKing (some 1))
    { hand := [Card.Countess, Card.King], discards := [],
      protected_flag := false, active := true }
    (by decide) (by decide) (by decide) (Or.inr rfl) (by decide) (by decide) (by decide)

/-- **C9.** A valid King play swaps the two hands *and* appends, to each
participant's discard pile, the card they held before the swap; each
participant's discard value sum thereafter includes the rank of the card
they gave away. -/
theorem king_swap_appends_discards (g : Game) (i t : Nat) (pi pt : Player)
    (c1 c2 : Card)
    (hne : i ≠ t)
    (hpi : g.players[i]? = some pi) (hpt : g.players[t]? = some pt)
    (h1 : pi.hand = [c1]) (h2 : pt.hand = [c2]) :
    ∃ g', g.play_king i t = some (g', [Event.SwapHands i c1 t c2]) ∧
      g'.players[i]? = some { pi with hand := [c2], discards := pi.discards ++ [c1] } ∧
      g'.players[t]? = some { pt with hand := [c1], discards := pt.discards ++ [c2] } ∧
      Player.value_of_discards { pi with hand := [c2], discards := pi.discards ++ [c1] }
        = pi.value_of_discards + c1.value ∧
      Player.value_of_discards { pt with hand := [c1], discards := pt.discards ++ [c2] }
        = pt.value_of_discards + c2.value := by
  have hlti : i < g.players.length := (List.getElem?_eq_some.mp hpi).1
  have hltt : t < g.players.length := (List.getElem?_eq_some.mp hpt).1
  have htc1 : pi.take_card =
      (some c1, { pi with discards := pi.discards ++ [c1], hand := [] }) := by
    unfold Player.take_card Player.card
    rw [h1]
    rfl
  have htc2 : pt.take_card =
      (some c2, { pt with discards := pt.discards ++ [c2], hand := [] }) := by
    unfold Player.take_card Player.card
    rw [h2]
    rfl
  have hg1t : (Game.setP g i { pi with discards := pi.discards ++ [c1], hand := [] }).players[t]? = some pt := by
    unfold Game.setP
    rw [List.getElem?_set_ne hne]
    exact hpt
  have hg2i : (Game.setP (Game.setP g i { pi with discards := pi.discards ++ [c1], hand := [] }) t { pt with discards := pt.discards ++ [c2], hand := [] }).players[i]? = some { pi with discards := pi.discards ++ [c1], hand := [] } := by
    unfold Game.setP
    rw [List.getElem?_set_ne (Ne.symm hne)]
    exact List.getElem?_set_self hlti
  have hg3t : (Game.setP (Game.setP (Game.setP g i { pi with discards := pi.discards ++ [c1], hand := [] }) t { pt with discards := pt.discards ++ [c2], hand := [] }) i (Player.give_card { pi with discards := pi.discards ++ [c1], hand := [] } c2)).players[t]? = some { pt with discards := pt.discards ++ [c2], hand := [] } := by
    unfold Game.setP
    rw [List.getElem?_set_ne hne]
    exact List.getElem?_set_self (by simpa using hltt)
  refine ⟨Game.setP (Game.setP (Game.setP (Game.setP g i { pi with discards := pi.discards ++ [c1], hand := [] }) t { pt with discards := pt.discards ++ [c2], hand := [] }) i (Player.give_card { pi with discards := pi.discards ++ [c1], hand := [] } c2)) t (Player.give_card { pt with discards := pt.discards ++ [c2], hand := [] } c1), ?_, ?_, ?_, ?_, ?_⟩
  · unfold Game.play_king
    rw [hpi]
    simp only []
    rw [htc1]
    simp only []
    rw [hg1t]
    simp only []
    rw [htc2]
    simp only []
    rw [hg2i]
    simp only []
    rw [hg3t]
  · unfold Game.setP
    simp only []
    rw [List.getElem?_set_ne (Ne.symm hne)]
    rw [List.getElem?_set_self (by simpa using hlti)]
    unfold Player.give_card
    rfl
  · unfold Game.setP
    simp only []
    rw [List.getElem?_set_self (by simpa using hltt)]
    unfold Player.give_card
    rfl
  · unfold Player.value_of_discards
    simp only []
    rw [List.map_append, List.sum_append]
    rfl
  · unfold Player.value_of_discards
    simp only []
    rw [List.map_append, List.sum_append]
    rfl

/-- A game in which seat 0 (holding the King after card removal) swaps
with seat 1. -/
def kingWitnessGame : Game :=
  { deck := ⟨[Card.Guard]⟩, burned_card := some Card.Countess,
    players := [
      { hand := [Card.Baron], discards := [Card.King], protected_flag := false,
        active := true },
      { hand := [Card.Priest], discards := [], protected_flag := false,
        active := true }],
    turn_counter := 0, state := GameState.InProgress }

/-- Witness for `king_swap_appends_discards` at `kingWitnessGame`. -/
theorem king_swap_appends_discards_witness :
    ∃ g', kingWitnessGame.play_king 0 1 =
        some (g', [Event.SwapHands 0 Card.Baron 1 Card.Priest]) ∧
      g'.players[0]? = some { hand := [Card.Priest], discards := [Card.King] ++ [Card.Baron], protected_flag := false, active := true } ∧
      g'.players[1]? = some { hand := [Card.Baron], discards := [] ++ [Card.Priest], protected_flag := false, active := true } ∧
      Player.value_of_discards { hand := [Card.Priest], discards := [Card.King] ++ [Card.Baron], protected_flag := false, active := (true : Bool) } = 6 + 3 ∧
      Player.value_of_discards { hand := [Card.Baron], discards := [] ++ [Card.Priest], protected_flag := false, active := (true : Bool) } = 0 + 2 :=
  king_swap_appends_discards kingWitnessGame 0 1
    { hand := [Card.Baron], discards := [Card.King], protected_flag := false, active := true }
    { hand := [Card.Priest], discards := [], protected_flag := false, active := true }
    Card.Baron Card.Priest (by decide) (by decide) (by decide) rfl rfl

/-- **C6.** Guard resolution: against a target holding exactly one card,
the Guess event is always emitted and the target is eliminated (with
their card revealed) exactly when the guess names their held card; and a
Guard play that targets the acting player themselves is rejected with
the cannot-target-self error, leaving the state unmodified and emitting
no events. -/
theorem guard_play_correct (g : Game) (t i : Nat) (pt : Player) (c guess : Card)
    (hpt : g.players[t]? = some pt) (hhand : pt.hand = [c]) :
    (guess = c →
      g.play_guard t guess = some
        ({ g with players := g.players.set t { pt with hand := [], discards := pt.discards ++ [c], active := false } },
         [Event.Guess t guess, Event.EliminatePlayer t, Event.RevealCard t c])) ∧
    (guess ≠ c → g.play_guard t guess = some (g, [Event.Guess t guess])) ∧
    (g.state = GameState.InProgress → i < g.players.length → g.turn_counter = i →
      g.play_card i (PlayCardDetails.PlayGuard (some i) guess) =
        some (g, Except.error (GameError.CannotTargetSelf Card.Guard))) := by
  have hlt : t < g.players.length := (List.getElem?_eq_some.mp hpt).1
  refine ⟨?_, ?_, ?_⟩
  · intro hg
    subst hg
    have hold : pt.is_holding_card guess = true := by
      unfold Player.is_holding_card
      rw [hhand]
      simp
    have helim : g.eliminate_player t =
        some (Game.setP g t pt.eliminate, Event.EliminatePlayer t) := by
      unfold Game.eliminate_player
      rw [hpt]
    have hg1t : (Game.setP g t pt.eliminate).players[t]? = some pt.eliminate := by
      unfold Game.setP
      exact List.getElem?_set_self hlt
    have htc : pt.eliminate.take_card =
        (some guess, { pt with hand := [], discards := pt.discards ++ [guess], active := false }) := by
      unfold Player.take_card Player.card Player.eliminate
      simp only []
      rw [hhand]
      rfl
    have hrev : (Game.setP g t pt.eliminate).reveal_eliminated_player_card t =
        some (Game.setP (Game.setP g t pt.eliminate) t { pt with hand := [], discards := pt.discards ++ [guess], active := false },
          Event.RevealCard t guess) := by
      unfold Game.reveal_eliminated_player_card
      rw [hg1t]
      simp only []
      rw [htc]
    have hset : Game.setP (Game.setP g t pt.eliminate) t { pt with hand := [], discards := pt.discards ++ [guess], active := false } =
        { g with players := g.players.set t { pt with hand := [], discards := pt.discards ++ [guess], active := false } } := by
      unfold Game.setP
      simp only []
      rw [List.set_set]
    unfold Game.play_guard
    rw [hpt]
    simp only []
    rw [if_pos hold, helim]
    simp only []
    rw [hrev]
    simp only []
    rw [hset]
  · intro hne
    have hold : pt.is_holding_card guess = false := by
      unfold Player.is_holding_card
      rw [hhand]
      simp
      exact hne
    unfold Game.play_guard
    rw [hpt]
    simp only []
    rw [if_neg (by rw [hold]; exact Bool.false_ne_true)]
  · intro hprog hex hturn
    have h1 : g.is_game_in_progress = Except.ok () := by
      unfold Game.is_game_in_progress
      rw [hprog]
    have h2 : g.does_player_exist i = Except.ok () := by
      unfold Game.does_player_exist
      rw [if_neg (by omega)]
    have h3 : g.is_it_players_turn i = Except.ok () := by
      unfold Game.is_it_players_turn
      rw [if_pos hturn]
    have htv : g.is_target_valid i (some i) Card.Guard =
        Except.error (GameError.CannotTargetSelf Card.Guard) := by
      unfold Game.is_target_valid
      rw [if_neg (by intro hcon; exact Option.noConfusion hcon.2.2)]
      rw [if_pos ⟨by decide, rfl⟩]
    unfold Game.play_card
    rw [h1, h2, h3]
    simp only [PlayCardDetails.target, PlayCardDetails.card]
    rw [htv]

/-- A game used to exercise `guard_play_correct`: seat 1 holds the
Priest. -/
def guardWitnessGame : Game :=
  { deck := ⟨[Card.Guard]⟩, burned_card := some Card.Countess,
    players := [
      { hand := [Card.Guard, Card.Baron], discards := [], protected_flag := false, active := true },
      { hand := [Card.Priest], discards := [], protected_flag := false, active := true }],
    turn_counter := 0, state := GameState.InProgress }

/-- Witness for `guard_play_correct` at `guardWitnessGame`: a correct
guess eliminates, a wrong guess does not, and self-targeting is
rejected. -/
theorem guard_play_correct_witness :
    (guardWitnessGame.play_guard 1 Card.Priest = some
      ({ guardWitnessGame with players := guardWitnessGame.players.set 1 { hand := [], discards := [] ++ [Card.Priest], protected_flag := false, active := false } },
       [Event.Guess 1 Card.Priest, Event.EliminatePlayer 1, Event.RevealCard 1 Card.Priest])) ∧
    (guardWitnessGame.play_guard 1 Card.Baron =
      some (guardWitnessGame, [Event.Guess 1 Card.Baron])) ∧
    (guardWitnessGame.play_card 0 (PlayCardDetails.PlayGuard (some 0) Card.Priest) =
      some (guardWitnessGame, Except.error (GameError.CannotTargetSelf Card.Guard))) := by
  have hright := guard_play_correct guardWitnessGame 1 0
    { hand := [Card.Priest], discards := [], protected_flag := false, active := true }
    Card.Priest Card.Priest (by decide) rfl
  have hwrong := guard_play_correct guardWitnessGame 1 0
    { hand := [Card.Priest], discards := [], protected_flag := false, active := true }
    Card.Priest Card.Baron (by decide) rfl
  exact ⟨hright.1 rfl, hwrong.2.1 (by decide),
    hright.2.2 (by decide) (by decide) (by decide)⟩

/-- **C4, amended.**  `StartGame{2}` on any game (with any shuffle
outcome of the fresh deck) succeeds and emits exactly `NewGame`,
`RegisterPlayer` 0 and 1, `BurnCard`, three `RemoveCardFromGame`s, a
`DealCard` to each seat, one further `DealCard` to seat 0 and
`ReadyToPlay 0` — eleven events in total — leaving the phase
`InProgress`. -/
theorem start_game_two_event_sequence (g : Game) (sh : List Card)
    (hperm : sh.Perm Deck.new.cards) :
    ∃ (g' : Game) (r1 r2 r3 d1 d2 d3 : Card),
      g.start_game sh 2 = some (g', Except.ok
        [Event.NewGame 2, Event.RegisterPlayer 0, Event.RegisterPlayer 1,
         Event.BurnCard, Event.RemoveCardFromGame r1, Event.RemoveCardFromGame r2,
         Event.RemoveCardFromGame r3, Event.DealCard 0 d1, Event.DealCard 1 d2,
         Event.DealCard 0 d3, Event.ReadyToPlay 0]) ∧
      g'.state = GameState.InProgress := by
  have hlen : sh.length = 16 := by
    rw [hperm.length_eq]
    rfl
  cases sh with
  | nil => simp only [List.length_cons, List.length_nil] at hlen; omega
  | cons a0 sh =>
  cases sh with
  | nil => simp only [List.length_cons, List.length_nil] at hlen; omega
  | cons a1 sh =>
  cases sh with
  | nil => simp only [List.length_cons, List.length_nil] at hlen; omega
  | cons a2 sh =>
  cases sh with
  | nil => simp only [List.length_cons, List.length_nil] at hlen; omega
  | cons a3 sh =>
  cases sh with
  | nil => simp only [List.length_cons, List.length_nil] at hlen; omega
  | cons a4 sh =>
  cases sh with
  | nil => simp only [List.length_cons, List.length_nil] at hlen; omega
  | cons a5 sh =>
  cases sh with
  | nil => simp only [List.length_cons, List.length_nil] at hlen; omega
  | cons a6 sh =>
  cases sh with
  | nil => simp only [List.length_cons, List.length_nil] at hlen; omega
  | cons a7 sh =>
  cases sh with
  | nil => simp only [List.length_cons, List.length_nil] at hlen; omega
  | cons a8 sh =>
  cases sh with
  | nil => simp only [List.length_cons, List.length_nil] at hlen; omega
  | cons a9 sh =>
  cases sh with
  | nil => simp only [List.length_cons, List.length_nil] at hlen; omega
  | cons a10 sh =>
  cases sh with
  | nil => simp only [List.length_cons, List.length_nil] at hlen; omega
  | cons a11 sh =>
  cases sh with
  | nil => simp only [List.length_cons, List.length_nil] at hlen; omega
  | cons a12 sh =>
  cases sh with
  | nil => simp only [List.length_cons, List.length_nil] at hlen; omega
  | cons a13 sh =>
  cases sh with
  | nil => simp only [List.length_cons, List.length_nil] at hlen; omega
  | cons a14 sh =>
  cases sh with
  | nil => simp only [List.length_cons, List.length_nil] at hlen; omega
  | cons a15 sh =>
  cases sh with
  | cons a16 sh => simp only [List.length_cons] at hlen; omega
  | nil => exact ⟨_, a14, a13, a12, a11, a10, a9, rfl, rfl⟩

/-- **C4, counterexample.**  The `StartGame{2}` event sequence has 11
events, not 13: the enumeration NewGame + 2 RegisterPlayer + BurnCard +
3 RemoveCardFromGame + 2 DealCard + 1 DealCard + ReadyToPlay sums
to 11. -/
theorem start_game_two_eleven_not_thirteen :
    (startTwoResult.map (fun r =>
      match r.2 with
      | Except.ok evs => some evs.length
      | Except.error _ => none)) = some (some 11) ∧ (11 : Nat) ≠ 13 := by
  decide

/-- Witness for `start_game_two_event_sequence` at a fresh game with the
canonical shuffle outcome. -/
theorem start_game_two_event_sequence_witness :
    ∃ (g' : Game) (r1 r2 r3 d1 d2 d3 : Card),
      Game.new.start_game canonicalOrder 2 = some (g', Except.ok
        [Event.NewGame 2, Event.RegisterPlayer 0, Event.RegisterPlayer 1,
         Event.BurnCard, Event.RemoveCardFromGame r1, Event.RemoveCardFromGame r2,
         Event.RemoveCardFromGame r3, Event.DealCard 0 d1, Event.DealCard 1 d2,
         Event.DealCard 0 d3, Event.ReadyToPlay 0]) ∧
      g'.state = GameState.InProgress :=
  start_game_two_event_sequence Game.new canonicalOrder (by decide)

/-- Witness for `error_leaves_state_unchanged`: playing a card before
any game has started is rejected with `GameNotInProgress` and the fresh
state is returned untouched. -/
theorem error_leaves_state_unchanged_witness :
    Game.new.perform_action canonicalOrder
        (Action.PlayCard 0 PlayCardDetails.PlayHandmaid)
      = some (Game.new, Except.error GameError.GameNotInProgress) ∧
    Game.new = Game.new :=
  ⟨by decide, error_leaves_state_unchanged canonicalOrder Game.new Game.new
    (Action.PlayCard 0 PlayCardDetails.PlayHandmaid) GameError.GameNotInProgress
    (by decide)⟩

end LoveLetter
